import Mathlib

/-!
Shallow embedding of the ReviewRabbit static-analysis engine
(src/reviewrabbit/analyzer.py, src/reviewrabbit/bug_detector.py).

Modelling conventions:
* File reads are modelled by an `Except String String` value: `.ok content`
  for a successful read, `.error msg` for any read/decode failure
  (`open`/`f.read()` raising in the Python source).
* `ast.parse` is modelled by an abstract parameter
  `parse : String → Except SynErr PyNode`; `SynErr` carries the fields of a
  Python `SyntaxError` that the source consults (`msg`, `lineno`, `offset`,
  the latter two `Option`-valued since CPython may leave them `None`).
* `re.search(pattern, line, re.IGNORECASE)` is modelled by an abstract
  matcher parameter `rex : String → String → Bool` applied to the
  verbatim pattern strings of the two catalogues; theorems quantify over
  the matcher, so they hold in particular for Python's regex engine.
* The Python string methods used by the analyzer (`split`, `strip`,
  `startswith`, `upper`, `lower`, `replace`) are implemented below by
  structural recursion over `List Char`, so that every definition in the
  file evaluates inside the kernel.
* `comment_ratio` (a Python float obtained by dividing one nonnegative int
  by another) is modelled exactly as a rational `ℚ`.
* `cyclomatic_complexity` is modelled as `ℤ` because the Python source adds
  `len(node.values) - 1`, which is a (possibly negative) int.
-/

namespace ReviewRabbit

/-! Character-level implementations of the Python string methods the
analyzer uses (`split`, `strip`, `startswith`, `upper`, `lower`,
`replace`); they are written by structural recursion over `List Char` so
that every definition in this file evaluates inside the kernel. -/

/-- Split a character list at every occurrence of `sep`
(`str.split(sep)`: no collapsing, so `n` separators give `n+1` groups). -/
def splitChars (sep : Char) : List Char → List (List Char)
  | [] => [[]]
  | c :: cs =>
      match splitChars sep cs with
      | [] => [[]]
      | g :: gs => if c == sep then [] :: g :: gs else (c :: g) :: gs

/-- `content.split('\n')`. -/
def splitLines (s : String) : List String :=
  (splitChars '\n' s.toList).map fun g => String.mk g

/-- The characters Python's default `str.strip()` removes (ASCII). -/
def isPySpace (c : Char) : Bool :=
  c == ' ' || c == '\t' || c == '\n' || c == '\r' || c == '\x0b' || c == '\x0c'

/-- `str.strip()`. -/
def pyStrip (s : String) : String :=
  String.mk (((s.toList.dropWhile isPySpace).reverse.dropWhile isPySpace).reverse)

/-- `str.startswith(pre)`. -/
def pyStartsWith (s pre : String) : Bool :=
  pre.toList.isPrefixOf s.toList

/-- Uppercase an ASCII letter (`str.upper()`, characterwise). -/
def asciiUpper (c : Char) : Char :=
  if 'a' ≤ c ∧ c ≤ 'z' then Char.ofNat (c.toNat - 32) else c

/-- `str.upper()` (the analyzed strings are ASCII). -/
def pyUpper (s : String) : String := String.mk (s.toList.map asciiUpper)

/-- Lowercase an ASCII letter (`str.lower()`, characterwise). -/
def asciiLower (c : Char) : Char :=
  if 'A' ≤ c ∧ c ≤ 'Z' then Char.ofNat (c.toNat + 32) else c

/-- `str.lower()` (the analyzed strings are ASCII). -/
def pyLower (s : String) : String := String.mk (s.toList.map asciiLower)

/-- `category.replace('_', ' ')`. -/
def replaceUnderscore (s : String) : String :=
  String.mk (s.toList.map fun c => if c == '_' then ' ' else c)

/-- Mirror of the `CodeIssue` dataclass in src/reviewrabbit/analyzer.py. -/
structure CodeIssue where
  file_path : String
  line_number : Nat
  column : Nat
  severity : String
  category : String
  message : String
  suggestion : Option String := none
  code_snippet : Option String := none
deriving Repr, DecidableEq

/-- Mirror of the `CodeMetrics` dataclass in src/reviewrabbit/analyzer.py. -/
structure CodeMetrics where
  file_path : String
  lines_of_code : Nat
  cyclomatic_complexity : Int
  function_count : Nat
  class_count : Nat
  import_count : Nat
  comment_ratio : ℚ
deriving Repr, DecidableEq

/-- The fields of a Python `SyntaxError` consulted by
`PythonASTAnalyzer.analyze_file` (`e.msg`, `e.lineno`, `e.offset`). -/
structure SynErr where
  msg : String
  lineno : Option Nat
  offset : Option Nat
deriving Repr, DecidableEq

/-- Python syntax-tree nodes, restricted to the node kinds that the
analyzer dispatches on (`ast.Import`, `ast.ImportFrom`, `ast.FunctionDef`,
`ast.ClassDef`, `ast.If`, `ast.While`, `ast.For`, `ast.AsyncFor`,
`ast.ExceptHandler`, `ast.BoolOp`, `ast.Name`, `ast.Attribute`,
`ast.Constant` holding a string, `ast.Expr`); every other node kind is
collapsed into `otherNode`, which still carries its children so that
`ast.walk` reaches everything.  `importStmt` names are `(name, asname)`
pairs mirroring `ast.alias`.  Nodes whose position the analyzer reads
carry `lineno`/`col` fields (`node.lineno`, `node.col_offset`). -/
inductive PyNode where
  | importStmt (lineno col : Nat) (names : List (String × Option String))
  | importFrom (lineno col : Nat) (module : String) (names : List (String × Option String))
  | functionDef (lineno col : Nat) (nm : String) (argCount : Nat) (body : List PyNode)
  | classDef (lineno col : Nat) (nm : String) (body : List PyNode)
  | ifStmt (test : PyNode) (body orelse : List PyNode)
  | whileStmt (test : PyNode) (body orelse : List PyNode)
  | forStmt (target iter : PyNode) (body orelse : List PyNode)
  | asyncForStmt (target iter : PyNode) (body orelse : List PyNode)
  | exceptHandler (lineno col : Nat) (typ : Option PyNode) (body : List PyNode)
  | boolOp (values : List PyNode)
  | nameExpr (id : String)
  | attributeExpr (value : PyNode) (attr : String)
  | constantStr (lineno col : Nat) (value : String)
  | exprStmt (lineno col : Nat) (value : PyNode)
  | otherNode (children : List PyNode)
deriving Repr

mutual

/-- All nodes of the tree, the node itself first — the multiset of nodes
yielded by Python's `ast.walk` (which enumerates breadth-first; every use
below is order-insensitive, so depth-first enumeration is equivalent). -/
def walk : PyNode → List PyNode
  | n@(.importStmt _ _ _) => [n]
  | n@(.importFrom _ _ _ _) => [n]
  | n@(.functionDef _ _ _ _ body) => n :: walkList body
  | n@(.classDef _ _ _ body) => n :: walkList body
  | n@(.ifStmt t body orelse) => n :: (walk t ++ (walkList body ++ walkList orelse))
  | n@(.whileStmt t body orelse) => n :: (walk t ++ (walkList body ++ walkList orelse))
  | n@(.forStmt tg it body orelse) =>
      n :: (walk tg ++ (walk it ++ (walkList body ++ walkList orelse)))
  | n@(.asyncForStmt tg it body orelse) =>
      n :: (walk tg ++ (walk it ++ (walkList body ++ walkList orelse)))
  | n@(.exceptHandler _ _ typ body) =>
      n :: ((match typ with | some t => walk t | none => []) ++ walkList body)
  | n@(.boolOp values) => n :: walkList values
  | n@(.nameExpr _) => [n]
  | n@(.attributeExpr v _) => n :: walk v
  | n@(.constantStr _ _ _) => [n]
  | n@(.exprStmt _ _ v) => n :: walk v
  | n@(.otherNode children) => n :: walkList children

/-- `walk` mapped over a list of nodes and concatenated. -/
def walkList : List PyNode → List PyNode
  | [] => []
  | n :: ns => walk n ++ walkList ns

end

/-- Mirror of `PythonASTAnalyzer._is_import_used`: the import name is used
iff some node of the tree is a `Name` with that id, or an `Attribute`
whose value is a `Name` with that id. -/
def isImportUsed (tree : PyNode) (importName : String) : Bool :=
  (walk tree).any fun n =>
    match n with
    | .nameExpr id => id == importName
    | .attributeExpr (.nameExpr id) _ => id == importName
    | _ => false

/-- The issues `PythonASTAnalyzer._analyze_ast` emits for one visited node
(the body of its `for node in ast.walk(tree)` loop, an if/elif chain). -/
def issuesForNode (tree : PyNode) (file_path : String) : PyNode → List CodeIssue
  | .importStmt lineno col names =>
      (names.filter fun al => !(isImportUsed tree al.1)).map fun al =>
        { file_path := file_path
          line_number := lineno
          column := col
          severity := "low"
          category := "unused_import"
          message := "Unused import: " ++ al.1
          suggestion := some ("Remove unused import: " ++ al.1) }
  | .functionDef lineno col nm argCount body =>
      (if body.length > 50 then
        [{ file_path := file_path
           line_number := lineno
           column := col
           severity := "medium"
           category := "code_quality"
           message := "Function \x27" ++ nm ++ "\x27 is too long (" ++
             toString body.length ++ " lines)"
           suggestion := some "Consider breaking this function into smaller functions" }]
      else []) ++
      (if argCount > 7 then
        [{ file_path := file_path
           line_number := lineno
           column := col
           severity := "medium"
           category := "code_quality"
           message := "Function \x27" ++ nm ++ "\x27 has too many parameters (" ++
             toString argCount ++ ")"
           suggestion := some "Consider using a data class or dictionary to group related parameters" }]
      else [])
  | .constantStr lineno col v =>
      if v.length > 50 &&
          !(pyStartsWith v "http" || pyStartsWith v "https" || pyStartsWith v "file://") then
        [{ file_path := file_path
           line_number := lineno
           column := col
           severity := "low"
           category := "best_practices"
           message := "Consider moving long string to a constant or configuration file"
           suggestion := some "Extract long strings to module-level constants" }]
      else []
  | .exceptHandler lineno col typ _ =>
      if typ.isNone then
        [{ file_path := file_path
           line_number := lineno
           column := col
           severity := "high"
           category := "error_handling"
           message := "Bare except clause catches all exceptions"
           suggestion := some "Specify the exception type or use \x27except Exception as e:\x27" }]
      else []
  | .exprStmt lineno col (.constantStr _ _ v) =>
      let comment := pyStrip v
      if pyStartsWith (pyUpper comment) "TODO" || pyStartsWith (pyUpper comment) "FIXME" ||
          pyStartsWith (pyUpper comment) "HACK" || pyStartsWith (pyUpper comment) "XXX" then
        [{ file_path := file_path
           line_number := lineno
           column := col
           severity := "info"
           category := "documentation"
           message := "Code comment: " ++ comment
           suggestion := some "Address the TODO/FIXME comment" }]
      else []
  | _ => []

/-- Mirror of `PythonASTAnalyzer._analyze_ast`: the per-node issues,
concatenated over the node enumeration. -/
def analyzeAst (tree : PyNode) (file_path : String) : List CodeIssue :=
  (walk tree).flatMap (issuesForNode tree file_path)

/-- Is this node one of the five branch kinds that add 1 to cyclomatic
complexity (`ast.If, ast.While, ast.For, ast.AsyncFor, ast.ExceptHandler`)? -/
def isBranchNode : PyNode → Bool
  | .ifStmt _ _ _ => true
  | .whileStmt _ _ _ => true
  | .forStmt _ _ _ _ => true
  | .asyncForStmt _ _ _ _ => true
  | .exceptHandler _ _ _ _ => true
  | _ => false

/-- Mirror of `PythonASTAnalyzer._calculate_metrics`.  The complexity
accumulator replays the Python loop literally: `+1` for a branch node,
`+ (len(node.values) - 1)` for a `BoolOp`. -/
def calculateMetrics (tree : PyNode) (file_path : String) (content : String) :
    CodeMetrics :=
  let lines := splitLines content
  let lines_of_code := (lines.filter fun l => pyStrip l ≠ "").length
  let comment_lines := (lines.filter fun l => pyStartsWith (pyStrip l) "#").length
  let comment_ratio : ℚ :=
    if lines_of_code > 0 then (comment_lines : ℚ) / (lines_of_code : ℚ) else 0
  let function_count :=
    ((walk tree).filter fun n => match n with | .functionDef _ _ _ _ _ => true | _ => false).length
  let class_count :=
    ((walk tree).filter fun n => match n with | .classDef _ _ _ _ => true | _ => false).length
  let import_count :=
    ((walk tree).filter fun n =>
      match n with
      | .importStmt _ _ _ => true
      | .importFrom _ _ _ _ => true
      | _ => false).length
  let complexity : Int :=
    (walk tree).foldl
      (fun acc n =>
        if isBranchNode n then acc + 1
        else match n with
          | .boolOp values => acc + ((values.length : Int) - 1)
          | _ => acc)
      1
  { file_path := file_path
    lines_of_code := lines_of_code
    cyclomatic_complexity := complexity
    function_count := function_count
    class_count := class_count
    import_count := import_count
    comment_ratio := comment_ratio }

/-- The all-zero metrics record `CodeMetrics(file_path, 0, 0, 0, 0, 0, 0.0)`
built in the exception handlers. -/
def zeroMetrics (file_path : String) : CodeMetrics :=
  { file_path := file_path
    lines_of_code := 0
    cyclomatic_complexity := 0
    function_count := 0
    class_count := 0
    import_count := 0
    comment_ratio := 0 }

/-- Truthiness of `e.lineno` (`if e.lineno` in Python): `None` and `0` are
falsy. -/
def linenoTruthy : Option Nat → Option Nat
  | some 0 => none
  | some n => some n
  | none => none

/-- Mirror of `PythonASTAnalyzer.analyze_file`.  `read` is the outcome of
`open(...).read()`; `parse` abstracts `ast.parse`.  A read failure takes
the generic `except Exception` branch; a parse failure takes the
`except SyntaxError` branch.  (The snippet lookup
`content.split('\n')[e.lineno - 1]` is modelled totally with `get?`; on
every CPython-reported position the index is in range.) -/
def pythonAnalyzeFile (file_path : String) (read : Except String String)
    (parse : String → Except SynErr PyNode) : List CodeIssue × CodeMetrics :=
  match read with
  | .error e =>
      ([{ file_path := file_path
          line_number := 0
          column := 0
          severity := "high"
          category := "analysis_error"
          message := "Analysis error: " ++ e }], zeroMetrics file_path)
  | .ok content =>
      match parse content with
      | .error e =>
          ([{ file_path := file_path
              line_number := e.lineno.getD 0
              column := e.offset.getD 0
              severity := "critical"
              category := "syntax_error"
              message := "Syntax error: " ++ e.msg
              code_snippet :=
                match linenoTruthy e.lineno with
                | some n => (splitLines content).get? (n - 1)
                | none => none }], zeroMetrics file_path)
      | .ok tree =>
          (analyzeAst tree file_path, calculateMetrics tree file_path content)

/-- The `self.security_patterns` catalogue of `SecurityAnalyzer.__init__`,
in dict insertion order, pattern strings verbatim (apostrophes written
with the escape \x27). -/
def securityPatterns : List (String × List String) :=
  [("sql_injection",
    ["execute\\s*\\(\\s*[\"\x27].*%.*[\"\x27]",
     "cursor\\.execute\\s*\\(\\s*[\"\x27].*%.*[\"\x27]",
     "query\\s*=\\s*[\"\x27].*%.*[\"\x27]"]),
   ("command_injection",
    ["os\\.system\\s*\\(",
     "subprocess\\.call\\s*\\(",
     "subprocess\\.run\\s*\\(",
     "eval\\s*\\(",
     "exec\\s*\\("]),
   ("path_traversal",
    ["open\\s*\\(\\s*[\"\x27].*\\.\\./.*[\"\x27]",
     "file\\s*\\(\\s*[\"\x27].*\\.\\./.*[\"\x27]",
     "Path\\s*\\(\\s*[\"\x27].*\\.\\./.*[\"\x27]"]),
   ("hardcoded_secrets",
    ["password\\s*=\\s*[\"\x27][^\"\x27]+[\"\x27]",
     "api_key\\s*=\\s*[\"\x27][^\"\x27]+[\"\x27]",
     "secret\\s*=\\s*[\"\x27][^\"\x27]+[\"\x27]",
     "token\\s*=\\s*[\"\x27][^\"\x27]+[\"\x27]"]),
   ("insecure_random",
    ["random\\.random\\s*\\(",
     "random\\.randint\\s*\\(",
     "random\\.choice\\s*\\("])]

/-- Mirror of `SecurityAnalyzer._get_severity_for_category`
(dict `.get` with default `'medium'`). -/
def securitySeverityFor (category : String) : String :=
  (([("sql_injection", "critical"),
     ("command_injection", "critical"),
     ("path_traversal", "high"),
     ("hardcoded_secrets", "high"),
     ("insecure_random", "medium")] : List (String × String)).lookup category).getD "medium"

/-- Mirror of `SecurityAnalyzer._get_suggestion_for_category`. -/
def securitySuggestionFor (category : String) : String :=
  (([("sql_injection", "Use parameterized queries or an ORM to prevent SQL injection"),
     ("command_injection", "Use subprocess with shell=False and validate input"),
     ("path_traversal", "Validate and sanitize file paths before use"),
     ("hardcoded_secrets", "Use environment variables or secure configuration management"),
     ("insecure_random", "Use secrets module for cryptographic purposes")] :
    List (String × String)).lookup category).getD
    "Review this code for security implications"

/-- The `self.bug_patterns` catalogue of `AdvancedBugDetector.__init__`,
in dict insertion order, pattern strings verbatim. -/
def bugPatterns : List (String × List String) :=
  [("null_pointer",
    ["\\.\\w+\\s*\\(\\s*None\\s*\\)",
     "if\\s+\\w+\\s*==\\s*None\\s*:",
     "if\\s+\\w+\\s*is\\s*None\\s*:"]),
   ("resource_leak",
    ["open\\s*\\([^)]+\\)(?!\\s*as\\s+)",
     "file\\s*\\([^)]+\\)(?!\\s*as\\s+)",
     "requests\\.get\\s*\\([^)]+\\)(?!\\s*as\\s+)"]),
   ("infinite_loop",
    ["while\\s+True\\s*:",
     "for\\s+\\w+\\s+in\\s+\\w+\\s*:.*continue"]),
   ("type_confusion",
    ["str\\s*\\(\\s*\\w+\\s*\\)\\s*\\+\\s*\\d+",
     "int\\s*\\(\\s*[\"\x27][^\"\x27]*[\"\x27]\\s*\\)"]),
   ("race_condition",
    ["threading\\.Thread\\s*\\(",
     "multiprocessing\\.Process\\s*\\("])]

/-- Mirror of `AdvancedBugDetector._get_severity_for_bug`. -/
def bugSeverityFor (category : String) : String :=
  (([("null_pointer", "high"),
     ("resource_leak", "high"),
     ("infinite_loop", "critical"),
     ("type_confusion", "medium"),
     ("race_condition", "high")] : List (String × String)).lookup category).getD "medium"

/-- Mirror of `AdvancedBugDetector._get_suggestion_for_bug`. -/
def bugSuggestionFor (category : String) : String :=
  (([("null_pointer", "Add null checks before accessing object methods"),
     ("resource_leak", "Use context managers (with statements) for resource management"),
     ("infinite_loop", "Add proper loop termination conditions"),
     ("type_confusion", "Ensure proper type conversion and validation"),
     ("race_condition", "Use proper synchronization mechanisms")] :
    List (String × String)).lookup category).getD
    "Review this code for potential issues"

/-- `enumerate(lines, k)`: pair each element with its index, starting at `k`. -/
def enumFrom : Nat → List String → List (Nat × String)
  | _, [] => []
  | k, l :: ls => (k, l) :: enumFrom (k + 1) ls

/-- The shared triple loop of `SecurityAnalyzer.analyze_file` and
`AdvancedBugDetector.detect_bugs`:
`for category, patterns in catalogue: for pattern in patterns:
for i, line in enumerate(lines, 1): if re.search(pattern, line, IGNORECASE): append`.
`rex` abstracts `re.search`; `mk` builds the appended `CodeIssue` from
(category, line number, line). -/
def scanCatalogue (rex : String → String → Bool)
    (catalogue : List (String × List String))
    (mk : String → Nat → String → CodeIssue) (lines : List String) :
    List CodeIssue :=
  catalogue.flatMap fun cp =>
    cp.2.flatMap fun pat =>
      (enumFrom 1 lines).filterMap fun il =>
        if rex pat il.2 then some (mk cp.1 il.1 il.2) else none

/-- The issue `SecurityAnalyzer.analyze_file` appends for a match of
category `cat` on line `i` with text `line`. -/
def mkSecurityIssue (file_path : String) (cat : String) (i : Nat) (line : String) :
    CodeIssue :=
  { file_path := file_path
    line_number := i
    column := 0
    severity := securitySeverityFor cat
    category := "security_" ++ cat
    message := "Potential " ++ (replaceUnderscore cat) ++ " vulnerability"
    suggestion := some (securitySuggestionFor cat)
    code_snippet := some (pyStrip line) }

/-- Mirror of `SecurityAnalyzer.analyze_file`: read the file, split into
lines, run the security catalogue; a read failure is converted into a
single `high`/`analysis_error` issue. -/
def securityAnalyzeFile (rex : String → String → Bool) (file_path : String)
    (read : Except String String) : List CodeIssue :=
  match read with
  | .error e =>
      [{ file_path := file_path
         line_number := 0
         column := 0
         severity := "high"
         category := "analysis_error"
         message := "Security analysis error: " ++ e }]
  | .ok content =>
      scanCatalogue rex securityPatterns (mkSecurityIssue file_path)
        (splitLines content)

/-- The issue `AdvancedBugDetector.detect_bugs` appends for a match of
category `cat` on line `i` with text `line`. -/
def mkBugIssue (file_path : String) (cat : String) (i : Nat) (line : String) :
    CodeIssue :=
  { file_path := file_path
    line_number := i
    column := 0
    severity := bugSeverityFor cat
    category := "bug_" ++ cat
    message := "Potential " ++ (replaceUnderscore cat) ++ " bug detected"
    suggestion := some (bugSuggestionFor cat)
    code_snippet := some (pyStrip line) }

/-- Mirror of `AdvancedBugDetector.detect_bugs` (takes the content
directly; it performs no file I/O). -/
def detectBugs (rex : String → String → Bool) (file_path content : String) :
    List CodeIssue :=
  scanCatalogue rex bugPatterns (mkBugIssue file_path) (splitLines content)

/-- Index of the last `'.'` in a list of characters, if any. -/
def lastDotIdx (cs : List Char) : Option Nat :=
  (cs.enum.filter fun p => p.2 == '.').getLast?.map Prod.fst

/-- Mirror of `pathlib.Path(file_path).suffix`: last `'.'`-suffix of the
final path component, empty when the dot is leading or trailing
(pathlib: `i = name.rfind('.'); name[i:] if 0 < i < len(name) - 1 else ''`). -/
def pathSuffix (p : String) : String :=
  let nm := (((splitChars '/' p.toList).map fun g => String.mk g).filter fun c => c ≠ "").getLastD ""
  let cs := nm.toList
  match lastDotIdx cs with
  | some i => if 0 < i ∧ i < cs.length - 1 then String.mk (cs.drop i) else ""
  | none => ""

/-- Mirror of `CodeAnalyzer.analyze_file`: for a `'.py'` file run the AST
analyzer and the security analyzer (each opens the file independently;
`read` models the shared, deterministic filesystem) and concatenate; for
any other extension return no issues and zeroed metrics.  Note that
`AdvancedBugDetector.detect_bugs` is NOT invoked here (or anywhere else in
the repository). -/
def codeAnalyzeFile (rex : String → String → Bool)
    (parse : String → Except SynErr PyNode) (file_path : String)
    (read : Except String String) : List CodeIssue × CodeMetrics :=
  if pyLower (pathSuffix file_path) == ".py" then
    let astResult := pythonAnalyzeFile file_path read parse
    let securityIssues := securityAnalyzeFile rex file_path read
    (astResult.1 ++ securityIssues, astResult.2)
  else
    ([], zeroMetrics file_path)

/-- Path components in the sense of `pathlib.PurePath.parts` for a
relative path: split on `'/'`, dropping empty and `'.'` components. -/
def pathComponents (p : String) : List String :=
  ((splitChars '/' p.toList).map fun g => String.mk g).filter fun c => c ≠ "" ∧ c ≠ "."

/-- All proper prefixes of a list (longest first is not required; only
membership is used).  `properPrefixes (pathComponents p)` is the component
representation of `pathlib.Path(p).parents` (whose last element is `'.'`,
here `[]`). -/
def properPrefixes : List String → List (List String)
  | [] => [[]]
  | c :: cs => [] :: (properPrefixes cs).map (c :: ·)

/-- The parents list contains exactly the strict prefixes; `[]` (i.e. `'.'`)
always, and never the full component list itself. -/
def pathParents (p : String) : List (List String) :=
  (properPrefixes (pathComponents p)).filter fun q => q ≠ pathComponents p

/-- Shell-style single-component wildcard match (`fnmatch` restricted to
the `*` and `?` metacharacters, which are the only ones appearing in this
repository's patterns; matching is case-sensitive as on POSIX).  The
`fuel` argument makes the recursion structural (every step consumes at
least one pattern or subject character, so `fuel = |p| + |s| + 1` in
`fnmatchChars` is never exhausted). -/
def fnmatchFuel : Nat → List Char → List Char → Bool
  | 0, _, _ => false
  | _ + 1, [], [] => true
  | _ + 1, [], _ :: _ => false
  | fuel + 1, '*' :: ps, [] => fnmatchFuel fuel ps []
  | fuel + 1, '*' :: ps, c :: cs =>
      fnmatchFuel fuel ps (c :: cs) || fnmatchFuel fuel ('*' :: ps) cs
  | fuel + 1, '?' :: ps, _ :: cs => fnmatchFuel fuel ps cs
  | fuel + 1, p :: ps, c :: cs => p == c && fnmatchFuel fuel ps cs
  | _ + 1, _ :: _, [] => false

/-- Single-component wildcard match with enough fuel. -/
def fnmatchChars (p s : List Char) : Bool :=
  fnmatchFuel (p.length + s.length + 1) p s

/-- Mirror of `pathlib.PurePath.match` for a relative pattern: the
pattern's components must match the same number of trailing components of
the path, componentwise. -/
def pathMatch (filePath pattern : String) : Bool :=
  let fps := pathComponents filePath
  let pps := pathComponents pattern
  if pps.isEmpty then false
  else if fps.length < pps.length then false
  else
    ((fps.drop (fps.length - pps.length)).zip pps).all fun sp =>
      fnmatchChars sp.2.toList sp.1.toList

/-- A filesystem tree: a regular file carries the outcome of reading it
(`.error` = the read raises, e.g. permission denied); a directory carries
its entries in `os.listdir` order. -/
inductive FSEntry where
  | file (nm : String) (read : Except String String)
  | dir (nm : String) (entries : List FSEntry)

/-- `os.path.join` over components. -/
def joinPath : List String → String
  | [] => ""
  | [c] => c
  | c :: cs => c ++ "/" ++ joinPath cs

/-- The pruning test of `CodeAnalyzer.analyze_directory` line 339:
a subdirectory `d` of `root` is REMOVED from the walk iff
`Path(root) / d in Path(p).parents` for some exclude pattern `p` —
i.e. the directory's own path is literally one of the lexical parents of
the exclude-pattern string. -/
def isPrunedDir (cur : List String) (d : String) (excludePatterns : List String) : Bool :=
  excludePatterns.any fun p => (pathParents p).contains (cur ++ [d])

/-- The `for file in files` loop of one `os.walk` triple: each regular
file of the current directory is analyzed iff its path matches some
include pattern (exclude patterns are NOT consulted for files).  Returns
(issues, metrics as an insertion-order association list keyed by joined
path). -/
def walkFiles (rex : String → String → Bool)
    (parse : String → Except SynErr PyNode)
    (includePatterns : List String) (cur : List String) :
    List FSEntry → List CodeIssue × List (String × CodeMetrics)
  | [] => ([], [])
  | .dir _ _ :: rest => walkFiles rex parse includePatterns cur rest
  | .file nm read :: rest =>
      let fp := joinPath (cur ++ [nm])
      let here :=
        if includePatterns.any fun pat => pathMatch fp pat then
          let r := codeAnalyzeFile rex parse fp read
          (r.1, [(fp, r.2)])
        else ([], [])
      let tail := walkFiles rex parse includePatterns cur rest
      (here.1 ++ tail.1, here.2 ++ tail.2)

mutual

/-- The recursive-descent phase of `os.walk` for one entry: a
subdirectory is descended into iff it is not pruned; inside it, its own
files are processed first (its `os.walk` triple), then its
subdirectories, in listing order. -/
def walkDirEntry (rex : String → String → Bool)
    (parse : String → Except SynErr PyNode)
    (includePatterns excludePatterns : List String)
    (cur : List String) :
    FSEntry → List CodeIssue × List (String × CodeMetrics)
  | .file _ _ => ([], [])
  | .dir nm entries =>
      if isPrunedDir cur nm excludePatterns then ([], [])
      else
        let f := walkFiles rex parse includePatterns (cur ++ [nm]) entries
        let d := walkDirList rex parse includePatterns excludePatterns (cur ++ [nm]) entries
        (f.1 ++ d.1, f.2 ++ d.2)

/-- `walkDirEntry` over a directory listing, results concatenated in
listing order. -/
def walkDirList (rex : String → String → Bool)
    (parse : String → Except SynErr PyNode)
    (includePatterns excludePatterns : List String)
    (cur : List String) :
    List FSEntry → List CodeIssue × List (String × CodeMetrics)
  | [] => ([], [])
  | e :: rest =>
      let here := walkDirEntry rex parse includePatterns excludePatterns cur e
      let tail := walkDirList rex parse includePatterns excludePatterns cur rest
      (here.1 ++ tail.1, here.2 ++ tail.2)

end

/-- The whole `os.walk` loop of `CodeAnalyzer.analyze_directory` from the
root directory: the root triple's files first, then the subdirectory
subtrees. -/
def walkEntries (rex : String → String → Bool)
    (parse : String → Except SynErr PyNode)
    (includePatterns excludePatterns : List String)
    (cur : List String) (entries : List FSEntry) :
    List CodeIssue × List (String × CodeMetrics) :=
  let f := walkFiles rex parse includePatterns cur entries
  let d := walkDirList rex parse includePatterns excludePatterns cur entries
  (f.1 ++ d.1, f.2 ++ d.2)

/-- The aggregate dictionary returned by `CodeAnalyzer.analyze_directory`. -/
structure DirResult where
  issues : List CodeIssue
  metrics : List (String × CodeMetrics)
  total_files : Nat
  total_issues : Nat
deriving Repr

/-- Mirror of `CodeAnalyzer.analyze_directory` on a modelled filesystem
rooted at path `root` with entries `entries`.  (In the source, files of a
directory are processed when `os.walk` yields that directory's triple, and
pruned subdirectories are never descended into; `total_files` is
`len(all_metrics)`.)  Subdirectory triples follow their parent's files;
the source's `os.walk` interleaves sibling subtrees in the same
depth-first order used here. -/
def analyzeDirectory (rex : String → String → Bool)
    (parse : String → Except SynErr PyNode) (root : List String)
    (entries : List FSEntry)
    (includePatterns excludePatterns : List String) : DirResult :=
  let r := walkEntries rex parse includePatterns excludePatterns root entries
  { issues := r.1
    metrics := r.2
    total_files := r.2.length
    total_issues := r.1.length }

/-! Helper lemmas. -/

/-- Appending the same string on the left is injective. -/
theorem string_append_cancel (s a b : String) (h : s ++ a = s ++ b) : a = b := by
  cases s with
  | mk sd =>
    cases a with
    | mk ad =>
      cases b with
      | mk bd =>
        have hd : sd ++ ad = sd ++ bd := congrArg String.data h
        exact congrArg String.mk (List.append_cancel_left hd)

/-- The complexity contribution of one visited node in
`_calculate_metrics`. -/
def complexityContrib (n : PyNode) : Int :=
  if isBranchNode n then 1
  else match n with
    | .boolOp values => (values.length : Int) - 1
    | _ => 0

/-- The `BoolOp` part of the complexity contribution. -/
def boolOpExcess (n : PyNode) : Int :=
  match n with
  | .boolOp values => (values.length : Int) - 1
  | _ => 0

theorem complexity_foldl (l : List PyNode) (init : Int) :
    l.foldl
      (fun acc n =>
        if isBranchNode n then acc + 1
        else match n with
          | PyNode.boolOp values => acc + ((values.length : Int) - 1)
          | _ => acc)
      init
    = init + (l.map complexityContrib).sum := by
  induction l generalizing init with
  | nil => simp
  | cons n ns ih =>
    have hstep :
        (if isBranchNode n then init + 1
         else match n with
           | PyNode.boolOp values => init + ((values.length : Int) - 1)
           | _ => init)
        = init + complexityContrib n := by
      by_cases h : isBranchNode n = true
      · simp [h, complexityContrib]
      · cases n <;> simp_all [complexityContrib, isBranchNode]
    simp only [List.foldl_cons, List.map_cons, List.sum_cons, ih, hstep]
    ring

theorem contrib_split (l : List PyNode) :
    (l.map complexityContrib).sum
      = ((l.countP fun n => isBranchNode n : Nat) : Int) + (l.map boolOpExcess).sum := by
  induction l with
  | nil => simp
  | cons n ns ih =>
    have hpt : complexityContrib n
        = (if isBranchNode n then (1 : Int) else 0) + boolOpExcess n := by
      cases n <;> simp [complexityContrib, boolOpExcess, isBranchNode]
    simp only [List.map_cons, List.sum_cons, ih, List.countP_cons, hpt]
    by_cases h : isBranchNode n = true <;> simp [h] <;> ring

/-! Claim theorems. -/

/-- C1.  Per-file analysis always returns a definite (issues, metrics)
pair (the embedding of `PythonASTAnalyzer.analyze_file` is a total
function), and on a parse failure the result is exactly one
`critical`-severity Issue with category `syntax_error`, its line/column
taken from the parser's reported position (`0` when unavailable), paired
with the all-zero metrics record. -/
theorem analyze_file_syntax_error (fp content : String)
    (parse : String → Except SynErr PyNode) (e : SynErr)
    (h : parse content = Except.error e) :
    ∃ issue,
      pythonAnalyzeFile fp (Except.ok content) parse = ([issue], zeroMetrics fp)
      ∧ issue.severity = "critical"
      ∧ issue.category = "syntax_error"
      ∧ issue.line_number = e.lineno.getD 0
      ∧ issue.column = e.offset.getD 0 := by
  refine ⟨{ file_path := fp
            line_number := e.lineno.getD 0
            column := e.offset.getD 0
            severity := "critical"
            category := "syntax_error"
            message := "Syntax error: " ++ e.msg
            suggestion := none
            code_snippet :=
              match linenoTruthy e.lineno with
              | some n => (splitLines content).get? (n - 1)
              | none => none }, ?_, rfl, rfl, rfl, rfl⟩
  simp [pythonAnalyzeFile, h]

/-- Witness for C1 at a concrete parse failure. -/
theorem analyze_file_syntax_error_witness :
    ∃ issue,
      pythonAnalyzeFile "bad.py" (Except.ok "x = (\n")
          (fun _ => Except.error ⟨"unexpected EOF while parsing", some 1, some 5⟩)
        = ([issue], zeroMetrics "bad.py")
      ∧ issue.severity = "critical"
      ∧ issue.category = "syntax_error"
      ∧ issue.line_number = (some 1 : Option Nat).getD 0
      ∧ issue.column = (some 5 : Option Nat).getD 0 :=
  analyze_file_syntax_error "bad.py" "x = (\n" _
    ⟨"unexpected EOF while parsing", some 1, some 5⟩ rfl

/-- C7.  For every tree, `cyclomatic_complexity` is 1, plus one per node
of kind if/while/for/async-for/exception-handler, plus `N - 1` per
boolean short-circuit node with `N` operands; and on the claim's concrete
example (one function with one `if`, one `while`, and `a and b and c`)
the value is 5. -/
theorem cyclomatic_complexity_formula :
    (∀ (fp content : String) (t : PyNode),
      (calculateMetrics t fp content).cyclomatic_complexity
        = 1 + ((walk t).countP fun n => isBranchNode n : Nat)
            + ((walk t).map boolOpExcess).sum)
    ∧ (calculateMetrics
        (.functionDef 1 0 "f" 0
          [.ifStmt (.nameExpr "p")
            [.whileStmt (.nameExpr "q")
              [.exprStmt 3 0 (.boolOp [.nameExpr "a", .nameExpr "b", .nameExpr "c"])] []]
            []])
        "example.py" "def f():\n    pass").cyclomatic_complexity = 5 := by
  constructor
  · intro fp content t
    show (walk t).foldl _ 1 = _
    rw [complexity_foldl, contrib_split]
    ring
  · decide

/-- C9.  The scanners are deterministic functions of (path, content): two
scans of equal read results / contents (with the fixed, immutable
catalogues) return identical issue lists in identical order. -/
theorem scan_deterministic (rex : String → String → Bool) (fp : String)
    (r1 r2 : Except String String) (ca cb : String)
    (hr : r1 = r2) (hc : ca = cb) :
    securityAnalyzeFile rex fp r1 = securityAnalyzeFile rex fp r2
    ∧ detectBugs rex fp ca = detectBugs rex fp cb := by
  subst hr; subst hc; exact ⟨rfl, rfl⟩

/-- Witness for C9 at concrete inputs. -/
theorem scan_deterministic_witness :
    securityAnalyzeFile (fun _ _ => true) "a.py" (Except.ok "eval(x)")
      = securityAnalyzeFile (fun _ _ => true) "a.py" (Except.ok "eval(x)")
    ∧ detectBugs (fun _ _ => true) "a.py" "while True:"
      = detectBugs (fun _ _ => true) "a.py" "while True:" :=
  scan_deterministic (fun _ _ => true) "a.py" (Except.ok "eval(x)")
    (Except.ok "eval(x)") "while True:" "while True:" rfl rfl

/-- C5 (code behavior at the claim's own scenario).  With exclude glob
`*/build/*` and include glob `*.py`, the file `proj/build/x.py` — whose
path matches the exclude glob — is still analyzed: the `build` directory
is not pruned, because the source's pruning test
(`Path(root) / d in Path(p).parents`) compares the concrete directory
path against the lexical parents of the glob string
(`*/build`, `*`, `.`), which never equal `proj/build`; and files are
never tested against exclude globs.  So the excluded subtree contributes
a metrics entry, contradicting the claim/spec. -/
theorem excluded_subtree_still_analyzed :
    (analyzeDirectory (fun _ _ => false) (fun _ => Except.ok (PyNode.nameExpr "x"))
        ["proj"] [.dir "build" [.file "x.py" (Except.ok "x = 1")]]
        ["*.py"] ["*/build/*"]).metrics.map Prod.fst = ["proj/build/x.py"]
    ∧ pathMatch "proj/build/x.py" "*/build/*" = true
    ∧ isPrunedDir ["proj"] "build" ["*/build/*"] = false := by decide

/-- Every issue a single visited node produces has one of the five
structural categories; and only a plain `import` node can produce an
`unused_import` issue. -/
theorem issuesForNode_cat (t : PyNode) (fp : String) (n : PyNode) (i : CodeIssue)
    (hi : i ∈ issuesForNode t fp n) :
    (i.category = "unused_import" ∨ i.category = "code_quality"
      ∨ i.category = "best_practices" ∨ i.category = "error_handling"
      ∨ i.category = "documentation")
    ∧ (i.category = "unused_import" →
        ∃ ln c names, n = PyNode.importStmt ln c names) := by
  cases n with
  | importStmt ln c names =>
      refine ⟨?_, fun _ => ⟨ln, c, names, rfl⟩⟩
      simp only [issuesForNode, List.mem_map] at hi
      obtain ⟨al, _, hEq⟩ := hi
      subst hEq
      left; rfl
  | functionDef ln c nm ac body =>
      have hcq : i.category = "code_quality" := by
        simp only [issuesForNode, List.mem_append] at hi
        rcases hi with h | h <;> split at h <;> simp_all
      rw [hcq]
      exact ⟨by right; left; rfl, fun hc => absurd hc (by decide)⟩
  | constantStr ln c v =>
      have hcq : i.category = "best_practices" := by
        simp only [issuesForNode] at hi
        split at hi <;> simp_all
      rw [hcq]
      exact ⟨by right; right; left; rfl, fun hc => absurd hc (by decide)⟩
  | exceptHandler ln c typ body =>
      have hcq : i.category = "error_handling" := by
        simp only [issuesForNode] at hi
        split at hi <;> simp_all
      rw [hcq]
      exact ⟨by right; right; right; left; rfl, fun hc => absurd hc (by decide)⟩
  | exprStmt ln c v =>
      cases v with
      | constantStr ln2 c2 s =>
          have hcq : i.category = "documentation" := by
            simp only [issuesForNode] at hi
            split at hi <;> simp_all
          rw [hcq]
          exact ⟨by right; right; right; right; rfl, fun hc => absurd hc (by decide)⟩
      | importStmt a b c2 => simp [issuesForNode] at hi
      | importFrom a b c2 d => simp [issuesForNode] at hi
      | functionDef a b c2 d e => simp [issuesForNode] at hi
      | classDef a b c2 d => simp [issuesForNode] at hi
      | ifStmt a b c2 => simp [issuesForNode] at hi
      | whileStmt a b c2 => simp [issuesForNode] at hi
      | forStmt a b c2 d => simp [issuesForNode] at hi
      | asyncForStmt a b c2 d => simp [issuesForNode] at hi
      | exceptHandler a b c2 d => simp [issuesForNode] at hi
      | boolOp vs => simp [issuesForNode] at hi
      | nameExpr id => simp [issuesForNode] at hi
      | attributeExpr v2 a => simp [issuesForNode] at hi
      | exprStmt a b c2 => simp [issuesForNode] at hi
      | otherNode ch => simp [issuesForNode] at hi
  | importFrom ln c m names => simp [issuesForNode] at hi
  | classDef ln c nm body => simp [issuesForNode] at hi
  | ifStmt a b c => simp [issuesForNode] at hi
  | whileStmt a b c => simp [issuesForNode] at hi
  | forStmt a b c d => simp [issuesForNode] at hi
  | asyncForStmt a b c d => simp [issuesForNode] at hi
  | boolOp vs => simp [issuesForNode] at hi
  | nameExpr id => simp [issuesForNode] at hi
  | attributeExpr v a => simp [issuesForNode] at hi
  | otherNode ch => simp [issuesForNode] at hi

/-- C10.  The unused-import rule: (i) a tree with no plain `import`
statement — in particular one using only `from X import Y` — never yields
an `unused_import` issue; (ii) for `import X as Y` (any alias), the
emitted issue names `X` and is produced whenever the usage check for `X`
fails, regardless of the alias; (iii) the usage check consults only plain
`Name` references and `Attribute` bases equal to the original module
name `X` — names equal to the alias `Y` (or anything else) do not count
as uses of `X`. -/
theorem unused_import_semantics :
    (∀ (t : PyNode) (fp : String),
      ((walk t).all fun n =>
        match n with | PyNode.importStmt _ _ _ => false | _ => true) = true →
      ∀ i ∈ analyzeAst t fp, i.category ≠ "unused_import")
    ∧ (∀ (t : PyNode) (fp x : String) (a : Option String) (ln c : Nat)
        (names : List (String × Option String)),
        PyNode.importStmt ln c names ∈ walk t → (x, a) ∈ names →
        isImportUsed t x = false →
        ({ file_path := fp, line_number := ln, column := c, severity := "low",
           category := "unused_import", message := "Unused import: " ++ x,
           suggestion := some ("Remove unused import: " ++ x) } : CodeIssue)
          ∈ analyzeAst t fp)
    ∧ (∀ (t : PyNode) (x : String),
        ((walk t).all fun n =>
          match n with
          | PyNode.nameExpr id => !(id == x)
          | PyNode.attributeExpr (PyNode.nameExpr id) _ => !(id == x)
          | _ => true) = true →
        isImportUsed t x = false) := by
  refine ⟨?_, ?_, ?_⟩
  · intro t fp hall i hi hcat
    rw [List.all_eq_true] at hall
    simp only [analyzeAst, List.mem_flatMap] at hi
    obtain ⟨n, hn, hin⟩ := hi
    obtain ⟨ln, c, names, rfl⟩ := (issuesForNode_cat t fp n i hin).2 hcat
    have := hall _ hn
    simp at this
  · intro t fp x a ln c names hmem hxa hunused
    simp only [analyzeAst, List.mem_flatMap]
    refine ⟨PyNode.importStmt ln c names, hmem, ?_⟩
    simp only [issuesForNode, List.mem_map]
    refine ⟨(x, a), List.mem_filter.mpr ⟨hxa, ?_⟩, rfl⟩
    simp [hunused]
  · intro t x hall
    rw [List.all_eq_true] at hall
    simp only [isImportUsed, List.any_eq_false]
    intro n hn
    have h := hall n hn
    cases n with
    | nameExpr id => simpa using h
    | attributeExpr v a =>
        cases v with
        | nameExpr id => simpa using h
        | _ => simp
    | _ => simp

/-- Witness for C10: a `from`-import-only tree yields no `unused_import`
issue; `import os as o` used only through the alias `o` is still reported
unused (the check looks for `os`, never `o`). -/
theorem unused_import_semantics_witness :
    (∀ i ∈ analyzeAst
        (PyNode.otherNode [PyNode.importFrom 1 0 "os" [("path", none)]]) "a.py",
      i.category ≠ "unused_import")
    ∧ ({ file_path := "b.py", line_number := 1, column := 0, severity := "low",
         category := "unused_import", message := "Unused import: " ++ "os",
         suggestion := some ("Remove unused import: " ++ "os") } : CodeIssue)
        ∈ analyzeAst
            (PyNode.otherNode
              [PyNode.importStmt 1 0 [("os", some "o")],
               PyNode.exprStmt 2 0
                 (PyNode.attributeExpr (PyNode.nameExpr "o") "path")]) "b.py"
    ∧ isImportUsed
        (PyNode.otherNode
          [PyNode.importStmt 1 0 [("os", some "o")],
           PyNode.exprStmt 2 0
             (PyNode.attributeExpr (PyNode.nameExpr "o") "path")]) "os" = false :=
  ⟨unused_import_semantics.1 _ "a.py" (by simp [walk, walkList]),
   unused_import_semantics.2.1 _ "b.py" "os" (some "o") 1 0 [("os", some "o")]
     (by simp [walk, walkList]) (by simp) (by decide),
   unused_import_semantics.2.2 _ "os" (by simp [walk, walkList])⟩

/-- Membership in a catalogue scan, unfolded. -/
theorem scanCatalogue_mem {rex : String → String → Bool}
    {catalogue : List (String × List String)}
    {mk : String → Nat → String → CodeIssue} {lines : List String}
    {i : CodeIssue} (hi : i ∈ scanCatalogue rex catalogue mk lines) :
    ∃ cp ∈ catalogue, ∃ pat ∈ cp.2, ∃ il ∈ enumFrom 1 lines,
      rex pat il.2 = true ∧ i = mk cp.1 il.1 il.2 := by
  simp only [scanCatalogue, List.mem_flatMap, List.mem_filterMap] at hi
  obtain ⟨cp, hcp, pat, hpat, il, hil, hopt⟩ := hi
  refine ⟨cp, hcp, pat, hpat, il, hil, ?_⟩
  by_cases h : rex pat il.2 = true
  · simp only [h, if_true, Option.some.injEq] at hopt
    exact ⟨h, hopt.symm⟩
  · simp only [Bool.not_eq_true] at h
    simp [h] at hopt

/-- C2 (amended).  `CodeAnalyzer.analyze_file` runs only the security
catalogue: no issue it returns ever has a category prefixed `bug_`,
whatever the matcher, parser and file.  The bug catalogue lives in
`AdvancedBugDetector.detect_bugs`, which no code in the repository
invokes; when `detect_bugs` IS called directly, every (pattern, line)
match in the five bug categories yields the corresponding `bug_`-prefixed
issue at that line. -/
theorem bug_catalogue_not_run :
    (∀ (rex : String → String → Bool) (parse : String → Except SynErr PyNode)
      (fp : String) (read : Except String String),
      ∀ i ∈ (codeAnalyzeFile rex parse fp read).1,
        pyStartsWith i.category "bug_" = false)
    ∧ (∀ (rex : String → String → Bool) (fp content cat : String)
        (pats : List String) (pat : String) (j : Nat) (line : String),
        (cat, pats) ∈ bugPatterns → pat ∈ pats →
        (j, line) ∈ enumFrom 1 (splitLines content) → rex pat line = true →
        mkBugIssue fp cat j line ∈ detectBugs rex fp content) := by
  constructor
  · intro rex parse fp read i hi
    simp only [codeAnalyzeFile] at hi
    split at hi
    · simp only [List.mem_append] at hi
      rcases hi with hp | hs
      · -- issues of the AST analyzer
        cases read with
        | error e =>
            simp only [pythonAnalyzeFile, List.mem_singleton] at hp
            subst hp
            exact (by decide : pyStartsWith "analysis_error" "bug_" = false)
        | ok content =>
            simp only [pythonAnalyzeFile] at hp
            cases hpc : parse content with
            | error e =>
                rw [hpc] at hp
                simp only [List.mem_singleton] at hp
                subst hp
                exact (by decide : pyStartsWith "syntax_error" "bug_" = false)
            | ok tree =>
                rw [hpc] at hp
                simp only [analyzeAst, List.mem_flatMap] at hp
                obtain ⟨n, _, hin⟩ := hp
                rcases (issuesForNode_cat tree fp n i hin).1 with h | h | h | h | h <;>
                  rw [h] <;> decide
      · -- issues of the security analyzer
        cases read with
        | error e =>
            simp only [securityAnalyzeFile, List.mem_singleton] at hs
            subst hs
            exact (by decide : pyStartsWith "analysis_error" "bug_" = false)
        | ok content =>
            simp only [securityAnalyzeFile] at hs
            obtain ⟨cp, hcp, pat, hpat, il, hil, hrex, hEq⟩ := scanCatalogue_mem hs
            subst hEq
            simp only [securityPatterns, List.mem_cons, List.mem_singleton,
              List.not_mem_nil, or_false] at hcp
            rcases hcp with rfl | rfl | rfl | rfl | rfl
            · exact (by decide :
                pyStartsWith ("security_" ++ "sql_injection") "bug_" = false)
            · exact (by decide :
                pyStartsWith ("security_" ++ "command_injection") "bug_" = false)
            · exact (by decide :
                pyStartsWith ("security_" ++ "path_traversal") "bug_" = false)
            · exact (by decide :
                pyStartsWith ("security_" ++ "hardcoded_secrets") "bug_" = false)
            · exact (by decide :
                pyStartsWith ("security_" ++ "insecure_random") "bug_" = false)
    · simp at hi
  · intro rex fp content cat pats pat j line hcp hpat hil hrex
    simp only [detectBugs, scanCatalogue]
    exact List.mem_flatMap.mpr ⟨(cat, pats), hcp,
      List.mem_flatMap.mpr ⟨pat, hpat,
        List.mem_filterMap.mpr ⟨(j, line), hil, by simp [hrex]⟩⟩⟩

/-- Counterexample for C2 as stated: on content `while True:` — a line
the bug pattern `while\s+True\s*:` of category `infinite_loop` matches
(here witnessed with a matcher that accepts everything, the most
favorable case) — `CodeAnalyzer.analyze_file` produces no `bug_`-category
issue at all, although `detect_bugs` would. -/
theorem bug_catalogue_not_run_counterexample :
    "while\\s+True\\s*:" ∈ ((bugPatterns.lookup "infinite_loop").getD [])
    ∧ detectBugs (fun _ _ => true) "t.py" "while True:" ≠ []
    ∧ ((codeAnalyzeFile (fun _ _ => true)
          (fun _ => Except.ok
            (PyNode.whileStmt (PyNode.nameExpr "True") [PyNode.otherNode []] []))
          "t.py" (Except.ok "while True:")).1.all
        fun i => !(pyStartsWith i.category "bug_")) = true := by decide

/-- Witness for C2 (amended) at concrete inputs. -/
theorem bug_catalogue_not_run_witness :
    pyStartsWith (mkSecurityIssue "t.py" "sql_injection" 1 "eval(x)").category
        "bug_" = false
    ∧ mkBugIssue "t.py" "infinite_loop" 1 "while True:"
        ∈ detectBugs (fun _ _ => true) "t.py" "while True:" :=
  ⟨bug_catalogue_not_run.1 (fun _ _ => true)
      (fun _ => Except.ok (PyNode.otherNode [])) "t.py" (Except.ok "eval(x)")
      (mkSecurityIssue "t.py" "sql_injection" 1 "eval(x)") (by decide),
   bug_catalogue_not_run.2 (fun _ _ => true) "t.py" "while True:"
      "infinite_loop"
      ["while\\s+True\\s*:", "for\\s+\\w+\\s+in\\s+\\w+\\s*:.*continue"]
      "while\\s+True\\s*:" 1 "while True:" (by decide) (by decide) (by decide)
      rfl⟩

/-- Indices produced by `enumerate(lines, k)` are at least `k`. -/
theorem enumFrom_ge (ls : List String) (k i : Nat) (line : String)
    (h : (i, line) ∈ enumFrom k ls) : k ≤ i := by
  induction ls generalizing k with
  | nil => simp [enumFrom] at h
  | cons l ls ih =>
      simp only [enumFrom, List.mem_cons] at h
      rcases h with h | h
      · injection h with h1 _
        omega
      · have := ih (k + 1) h
        omega

/-- A line-indexed filterMap over `enumerate(lines, k)` contains no issue
with a line number below `k`. -/
theorem filterMap_enum_zero (F : Nat → String → Option CodeIssue)
    (hF : ∀ j l x, F j l = some x → x.line_number = j) (i : Nat) :
    ∀ (ls : List String) (k : Nat), i < k →
    (((enumFrom k ls).filterMap fun il => F il.1 il.2).filter
      fun x => x.line_number == i) = [] := by
  intro ls
  induction ls with
  | nil => intro k _; simp [enumFrom]
  | cons l ls ih =>
      intro k hk
      simp only [enumFrom, List.filterMap_cons]
      cases hFl : F k l with
      | none => exact ih (k + 1) (by omega)
      | some x =>
          have hx := hF k l x hFl
          have hne : (x.line_number == i) = false := by
            simp only [beq_eq_false_iff_ne, ne_eq, hx]
            omega
          simp only [List.filter_cons, hne, Bool.false_eq_true, if_false]
          exact ih (k + 1) (by omega)

/-- A line-indexed filterMap over `enumerate(lines, k)` contributes to
line `i` exactly its value at the unique `(i, line)` entry. -/
theorem filterMap_enum_count (F : Nat → String → Option CodeIssue)
    (hF : ∀ j l x, F j l = some x → x.line_number = j)
    (i : Nat) (line : String) :
    ∀ (ls : List String) (k : Nat), (i, line) ∈ enumFrom k ls →
    (((enumFrom k ls).filterMap fun il => F il.1 il.2).filter
      fun x => x.line_number == i).length
      = if (F i line).isSome then 1 else 0 := by
  intro ls
  induction ls with
  | nil => intro k h; simp [enumFrom] at h
  | cons l ls ih =>
      intro k hmem
      simp only [enumFrom, List.mem_cons] at hmem
      by_cases hik : i = k
      · subst hik
        have hline : line = l := by
          rcases hmem with h | h
          · injection h with _ h2
          · exact absurd (enumFrom_ge ls (i + 1) i line h) (by omega)
        subst hline
        simp only [enumFrom, List.filterMap_cons]
        cases hFl : F i line with
        | none =>
            rw [filterMap_enum_zero F hF i ls (i + 1) (by omega)]
            simp [hFl]
        | some x =>
            have hx := hF i line x hFl
            have hkeep : (x.line_number == i) = true := by simp [hx]
            simp only [List.filter_cons, hkeep, if_true, List.length_cons]
            rw [filterMap_enum_zero F hF i ls (i + 1) (by omega)]
            simp [hFl]
      · have hmem2 : (i, line) ∈ enumFrom (k + 1) ls := by
          rcases hmem with h | h
          · injection h with h1 _
            exact absurd h1 hik
          · exact h
        simp only [enumFrom, List.filterMap_cons]
        cases hFl : F k l with
        | none => exact ih (k + 1) hmem2
        | some x =>
            have hx := hF k l x hFl
            have hne : (x.line_number == i) = false := by
              simp only [beq_eq_false_iff_ne, ne_eq, hx]
              omega
            simp only [List.filter_cons, hne, Bool.false_eq_true, if_false]
            exact ih (k + 1) hmem2

/-- Every issue in one category's scan block is `mk c j l` for some
position. -/
theorem block_mem {rex : String → String → Bool}
    {mk : String → Nat → String → CodeIssue} {c : String}
    {pats : List String} {lines : List String} {x : CodeIssue}
    (hx : x ∈ pats.flatMap fun pat =>
        (enumFrom 1 lines).filterMap fun il =>
          if rex pat il.2 then some (mk c il.1 il.2) else none) :
    ∃ j l, x = mk c j l := by
  simp only [List.mem_flatMap, List.mem_filterMap] at hx
  obtain ⟨pat, _, il, _, hopt⟩ := hx
  by_cases h : rex pat il.2 = true
  · rw [if_pos h] at hopt
    exact ⟨il.1, il.2, (Option.some.injEq _ _ ▸ hopt).symm⟩
  · simp [h] at hopt

/-- One category's block contributes, at line `i`, one issue per pattern
of the category matching that line. -/
theorem pats_block_count (rex : String → String → Bool)
    (mk : String → Nat → String → CodeIssue)
    (hmk : ∀ c j l, (mk c j l).line_number = j)
    (c : String) (lines : List String) (i : Nat) (line : String)
    (hline : (i, line) ∈ enumFrom 1 lines) (pats : List String) :
    ((pats.flatMap fun pat =>
        (enumFrom 1 lines).filterMap fun il =>
          if rex pat il.2 then some (mk c il.1 il.2) else none).filter
      fun x => x.line_number == i).length
      = pats.countP fun pat => rex pat line := by
  induction pats with
  | nil => simp
  | cons pat ps ih =>
      simp only [List.flatMap_cons, List.filter_append, List.length_append, ih,
        List.countP_cons]
      have hcnt := filterMap_enum_count
        (fun j l => if rex pat l then some (mk c j l) else none)
        (by
          intro j l x hx
          by_cases h : rex pat l = true
          · simp only [h, if_true] at hx
            injection hx with hx
            rw [← hx]
            exact hmk c j l
          · simp [h] at hx)
        i line lines 1 hline
      rw [hcnt]
      by_cases h : rex pat line = true
      · simp only [h, if_true, Option.isSome_some]
        omega
      · simp only [h, Bool.false_eq_true, if_false, Option.isSome_none]
        omega

/-- Blocks of other categories contribute nothing to the filtered list of
a target category. -/
theorem scanCatalogue_filter_ne (rex : String → String → Bool)
    (mk : String → Nat → String → CodeIssue) (pfx target : String)
    (hmk_cat : ∀ c j l, (mk c j l).category = pfx ++ c)
    (lines : List String) (i : Nat) (catalogue : List (String × List String))
    (hne : ∀ cp ∈ catalogue, cp.1 ≠ target) :
    ((scanCatalogue rex catalogue mk lines).filter
      fun x => x.category == pfx ++ target && x.line_number == i) = [] := by
  rw [List.filter_eq_nil_iff]
  intro x hx
  obtain ⟨cp, hcp, pat, hpat, il, hil, hrex, rfl⟩ := scanCatalogue_mem hx
  simp only [hmk_cat, Bool.and_eq_true, beq_iff_eq, not_and]
  intro hcat _
  exact hne cp hcp (string_append_cancel pfx cp.1 target hcat)

/-- The full catalogue scan contributes, at (category, line), one issue
per matching pattern of that category. -/
theorem scanCatalogue_count (rex : String → String → Bool)
    (mk : String → Nat → String → CodeIssue) (pfx : String)
    (hmk_line : ∀ c j l, (mk c j l).line_number = j)
    (hmk_cat : ∀ c j l, (mk c j l).category = pfx ++ c)
    (lines : List String) (i : Nat) (line : String)
    (hline : (i, line) ∈ enumFrom 1 lines)
    (cat : String) (pats : List String) :
    ∀ catalogue : List (String × List String),
    (cat, pats) ∈ catalogue → (catalogue.map Prod.fst).Nodup →
    ((scanCatalogue rex catalogue mk lines).filter
      fun x => x.category == pfx ++ cat && x.line_number == i).length
      = pats.countP fun pat => rex pat line := by
  intro catalogue
  induction catalogue with
  | nil => intro h _; simp at h
  | cons cp rest ih =>
      intro hmem hnodup
      have hsplit : scanCatalogue rex (cp :: rest) mk lines
          = (cp.2.flatMap fun pat =>
              (enumFrom 1 lines).filterMap fun il =>
                if rex pat il.2 then some (mk cp.1 il.1 il.2) else none)
            ++ scanCatalogue rex rest mk lines := by
        simp only [scanCatalogue, List.flatMap_cons]
      rw [hsplit]
      simp only [List.filter_append, List.length_append]
      rcases List.mem_cons.mp hmem with heq | hrest
      · have hcpfst : cp.1 = cat := by rw [← heq]
        have hcpsnd : cp.2 = pats := by rw [← heq]
        have hnotin : cat ∉ rest.map Prod.fst := by
          have := (List.nodup_cons.mp hnodup).1
          rwa [hcpfst] at this
        have htail :
            ((scanCatalogue rex rest mk lines).filter
              fun x => x.category == pfx ++ cat && x.line_number == i) = [] := by
          refine scanCatalogue_filter_ne rex mk pfx cat hmk_cat lines i rest ?_
          intro cq hcq hq
          exact hnotin (hq ▸ List.mem_map_of_mem Prod.fst hcq)
        rw [htail]
        have hhead :
            ((cp.2.flatMap fun pat =>
              (enumFrom 1 lines).filterMap fun il =>
                if rex pat il.2 then some (mk cp.1 il.1 il.2) else none).filter
              fun x => x.category == pfx ++ cat && x.line_number == i)
            = ((cp.2.flatMap fun pat =>
              (enumFrom 1 lines).filterMap fun il =>
                if rex pat il.2 then some (mk cp.1 il.1 il.2) else none).filter
              fun x => x.line_number == i) := by
          refine List.filter_congr ?_
          intro x hx
          obtain ⟨j, l, rfl⟩ := block_mem hx
          simp [hmk_cat, hcpfst]
        rw [hhead, hcpfst, hcpsnd,
          pats_block_count rex mk hmk_line cat lines i line hline pats]
        simp only [List.length_nil, Nat.add_zero]
      · have hne1 : cp.1 ≠ cat := by
          intro hq
          have h1 := (List.nodup_cons.mp hnodup).1
          apply h1
          rw [hq]
          exact List.mem_map_of_mem Prod.fst hrest
        have hhead :
            ((cp.2.flatMap fun pat =>
              (enumFrom 1 lines).filterMap fun il =>
                if rex pat il.2 then some (mk cp.1 il.1 il.2) else none).filter
              fun x => x.category == pfx ++ cat && x.line_number == i) = [] := by
          rw [List.filter_eq_nil_iff]
          intro x hx
          obtain ⟨j, l, rfl⟩ := block_mem hx
          simp only [hmk_cat, Bool.and_eq_true, beq_iff_eq, not_and]
          intro hcat _
          exact hne1 (string_append_cancel pfx cp.1 cat hcat)
        rw [hhead]
        simp only [List.length_nil, Nat.zero_add]
        exact ih hrest (List.nodup_cons.mp hnodup).2

/-- C3 (amended).  For every category of either catalogue and every line,
the scan emits one issue per PATTERN of that category matching the line —
not at most one per category (there is no first-match-wins
deduplication); distinct categories still contribute independently. -/
theorem per_pattern_issue_count :
    (∀ (rex : String → String → Bool) (fp content cat : String)
      (pats : List String) (i : Nat) (line : String),
      (cat, pats) ∈ securityPatterns →
      (i, line) ∈ enumFrom 1 (splitLines content) →
      ((securityAnalyzeFile rex fp (Except.ok content)).filter fun x =>
          x.category == "security_" ++ cat && x.line_number == i).length
        = pats.countP fun pat => rex pat line)
    ∧ (∀ (rex : String → String → Bool) (fp content cat : String)
      (pats : List String) (i : Nat) (line : String),
      (cat, pats) ∈ bugPatterns →
      (i, line) ∈ enumFrom 1 (splitLines content) →
      ((detectBugs rex fp content).filter fun x =>
          x.category == "bug_" ++ cat && x.line_number == i).length
        = pats.countP fun pat => rex pat line) := by
  constructor
  · intro rex fp content cat pats i line hcp hline
    exact scanCatalogue_count rex (mkSecurityIssue fp) "security_"
      (fun _ _ _ => rfl) (fun _ _ _ => rfl) (splitLines content) i line hline
      cat pats securityPatterns hcp (by decide)
  · intro rex fp content cat pats i line hcp hline
    exact scanCatalogue_count rex (mkBugIssue fp) "bug_"
      (fun _ _ _ => rfl) (fun _ _ _ => rfl) (splitLines content) i line hline
      cat pats bugPatterns hcp (by decide)

/-- Counterexample for C3 as stated: on the line
`password = "a"; token = "b"`, both the `password` and the `token`
pattern of the single category `hardcoded_secrets` match (the matcher
used here returns exactly what `re.search` returns on this line for every
catalogue pattern), and the scan emits TWO `security_hardcoded_secrets`
issues for line 1 — not at most one. -/
theorem per_pattern_issue_count_counterexample :
    ((securityAnalyzeFile
        (fun p l =>
          (p == "password\\s*=\\s*[\"\x27][^\"\x27]+[\"\x27]"
            || p == "token\\s*=\\s*[\"\x27][^\"\x27]+[\"\x27]")
          && l == "password = \"a\"; token = \"b\"")
        "t.py" (Except.ok "password = \"a\"; token = \"b\"")).filter fun x =>
      x.category == "security_hardcoded_secrets" && x.line_number == 1).length
    = 2 := by decide

/-- Witness for C3 (amended) at the concrete two-match line. -/
theorem per_pattern_issue_count_witness :
    ((securityAnalyzeFile
        (fun p l =>
          (p == "password\\s*=\\s*[\"\x27][^\"\x27]+[\"\x27]"
            || p == "token\\s*=\\s*[\"\x27][^\"\x27]+[\"\x27]")
          && l == "password = \"a\"; token = \"b\"")
        "t.py" (Except.ok "password = \"a\"; token = \"b\"")).filter fun x =>
      x.category == "security_" ++ "hardcoded_secrets" && x.line_number == 1).length
    = (["password\\s*=\\s*[\"\x27][^\"\x27]+[\"\x27]",
        "api_key\\s*=\\s*[\"\x27][^\"\x27]+[\"\x27]",
        "secret\\s*=\\s*[\"\x27][^\"\x27]+[\"\x27]",
        "token\\s*=\\s*[\"\x27][^\"\x27]+[\"\x27]"].countP fun pat =>
        (fun p l =>
          (p == "password\\s*=\\s*[\"\x27][^\"\x27]+[\"\x27]"
            || p == "token\\s*=\\s*[\"\x27][^\"\x27]+[\"\x27]")
          && l == "password = \"a\"; token = \"b\"")
          pat "password = \"a\"; token = \"b\"") :=
  per_pattern_issue_count.1
    (fun p l =>
      (p == "password\\s*=\\s*[\"\x27][^\"\x27]+[\"\x27]"
        || p == "token\\s*=\\s*[\"\x27][^\"\x27]+[\"\x27]")
      && l == "password = \"a\"; token = \"b\"")
    "t.py" "password = \"a\"; token = \"b\"" "hardcoded_secrets"
    ["password\\s*=\\s*[\"\x27][^\"\x27]+[\"\x27]",
     "api_key\\s*=\\s*[\"\x27][^\"\x27]+[\"\x27]",
     "secret\\s*=\\s*[\"\x27][^\"\x27]+[\"\x27]",
     "token\\s*=\\s*[\"\x27][^\"\x27]+[\"\x27]"] 1
    "password = \"a\"; token = \"b\"" (by decide) (by decide)

/-- Filtering with a weaker predicate keeps at least as many elements. -/
theorem filter_length_mono {α : Type} (l : List α) (p q : α → Bool)
    (h : ∀ a ∈ l, p a = true → q a = true) :
    (l.filter p).length ≤ (l.filter q).length := by
  induction l with
  | nil => simp
  | cons a as ih =>
      have ih2 := ih fun x hx hpx => h x (List.mem_cons_of_mem a hx) hpx
      cases hp : p a with
      | true =>
          have hq := h a (List.mem_cons_self a as) hp
          simp only [List.filter_cons, hp, hq, if_true, List.length_cons]
          omega
      | false =>
          cases hq : q a with
          | true =>
              simp only [List.filter_cons, hp, hq, Bool.false_eq_true, if_false,
                if_true, List.length_cons]
              omega
          | false =>
              simp only [List.filter_cons, hp, hq, Bool.false_eq_true, if_false]
              exact ih2

/-- Real parser output never contains a `BoolOp` with an empty operand
list (CPython guarantees at least two operands); trees violating this are
unreachable from `ast.parse`. -/
def wfBoolOps (t : PyNode) : Bool :=
  (walk t).all fun n =>
    match n with
    | PyNode.boolOp [] => false
    | _ => true

theorem contrib_nonneg (n : PyNode)
    (h : (match n with | PyNode.boolOp [] => false | _ => true) = true) :
    0 ≤ complexityContrib n := by
  cases n with
  | boolOp vs =>
      cases vs with
      | nil => simp at h
      | cons v vss =>
          simp only [complexityContrib, isBranchNode, Bool.false_eq_true,
            if_false, List.length_cons]
          omega
  | _ => simp [complexityContrib, isBranchNode]

/-- C8 (amended).  Every metrics record the engine produces has
`comment_ratio ∈ [0,1]`, with ratio `0` whenever `lines_of_code = 0`; the
count fields are naturals (hence non-negative) by construction; and
either the file was a successfully parsed `.py` file — in which case
`cyclomatic_complexity ≥ 1` (given parser-wellformed `BoolOp` nodes) — or
the record is the all-zero record, whose `cyclomatic_complexity` is `0`,
not `≥ 1` as claimed. -/
theorem metrics_invariants (rex : String → String → Bool)
    (parse : String → Except SynErr PyNode) (fp : String)
    (read : Except String String)
    (hwf : ∀ content t, read = Except.ok content →
      parse content = Except.ok t → wfBoolOps t = true) :
    0 ≤ (codeAnalyzeFile rex parse fp read).2.comment_ratio
    ∧ (codeAnalyzeFile rex parse fp read).2.comment_ratio ≤ 1
    ∧ ((codeAnalyzeFile rex parse fp read).2.lines_of_code = 0 →
        (codeAnalyzeFile rex parse fp read).2.comment_ratio = 0)
    ∧ (1 ≤ (codeAnalyzeFile rex parse fp read).2.cyclomatic_complexity
        ∨ (codeAnalyzeFile rex parse fp read).2 = zeroMetrics fp) := by
  have hzero : 0 ≤ (zeroMetrics fp).comment_ratio
      ∧ (zeroMetrics fp).comment_ratio ≤ 1
      ∧ ((zeroMetrics fp).lines_of_code = 0 → (zeroMetrics fp).comment_ratio = 0)
      ∧ (1 ≤ (zeroMetrics fp).cyclomatic_complexity
          ∨ zeroMetrics fp = zeroMetrics fp) :=
    ⟨le_refl 0, by norm_num [zeroMetrics], fun _ => rfl, Or.inr rfl⟩
  simp only [codeAnalyzeFile]
  split
  · cases read with
    | error e => exact hzero
    | ok content =>
        simp only [pythonAnalyzeFile]
        cases hp : parse content with
        | error e => exact hzero
        | ok t =>
            have hwft := hwf content t rfl hp
            -- the parsed branch: metrics = calculateMetrics
            simp only [calculateMetrics]
            set lines := splitLines content with hlines
            set loc := (lines.filter fun l => pyStrip l ≠ "").length with hloc
            set cl := (lines.filter fun l => pyStartsWith (pyStrip l) "#").length
              with hcl
            have hle : cl ≤ loc := by
              rw [hcl, hloc]
              refine filter_length_mono lines _ _ ?_
              intro a _ ha
              simp only [decide_eq_true_eq]
              intro hempty
              rw [hempty] at ha
              exact absurd ha (by decide)
            have hratio : 0 ≤ (if loc > 0 then (cl : ℚ) / (loc : ℚ) else 0)
                ∧ (if loc > 0 then (cl : ℚ) / (loc : ℚ) else 0) ≤ 1 := by
              split
              · constructor
                · positivity
                · rw [div_le_one (by positivity)]
                  exact_mod_cast hle
              · norm_num
            have hcompl :
                1 ≤ (walk t).foldl
                  (fun acc n =>
                    if isBranchNode n then acc + 1
                    else match n with
                      | PyNode.boolOp values => acc + ((values.length : Int) - 1)
                      | _ => acc)
                  1 := by
              rw [complexity_foldl]
              have hsum : 0 ≤ ((walk t).map complexityContrib).sum := by
                refine List.sum_nonneg ?_
                intro a ha
                obtain ⟨n, hn, rfl⟩ := List.mem_map.mp ha
                refine contrib_nonneg n ?_
                rw [wfBoolOps, List.all_eq_true] at hwft
                exact hwft n hn
              omega
            refine ⟨hratio.1, hratio.2, ?_, Or.inl hcompl⟩
            intro hloc0
            simp only [hloc0] at *
            norm_num
  · exact hzero

/-- Counterexample for C8 as stated: a file with an unrecognized
extension gets the all-zero metrics record, whose
`cyclomatic_complexity` is `0`, not `≥ 1`. -/
theorem metrics_invariants_counterexample :
    ¬ (1 ≤ (codeAnalyzeFile (fun _ _ => false)
        (fun _ => Except.ok (PyNode.nameExpr "x")) "notes.txt"
        (Except.ok "x = 1")).2.cyclomatic_complexity) := by decide

/-- Witness for C8 (amended) at a concrete parsed file. -/
theorem metrics_invariants_witness :
    0 ≤ (codeAnalyzeFile (fun _ _ => false)
        (fun _ => Except.ok (PyNode.boolOp [PyNode.nameExpr "a", PyNode.nameExpr "b"]))
        "w.py" (Except.ok "x = 1\n# note")).2.comment_ratio
    ∧ (codeAnalyzeFile (fun _ _ => false)
        (fun _ => Except.ok (PyNode.boolOp [PyNode.nameExpr "a", PyNode.nameExpr "b"]))
        "w.py" (Except.ok "x = 1\n# note")).2.comment_ratio ≤ 1
    ∧ ((codeAnalyzeFile (fun _ _ => false)
        (fun _ => Except.ok (PyNode.boolOp [PyNode.nameExpr "a", PyNode.nameExpr "b"]))
        "w.py" (Except.ok "x = 1\n# note")).2.lines_of_code = 0 →
        (codeAnalyzeFile (fun _ _ => false)
          (fun _ => Except.ok (PyNode.boolOp [PyNode.nameExpr "a", PyNode.nameExpr "b"]))
          "w.py" (Except.ok "x = 1\n# note")).2.comment_ratio = 0)
    ∧ (1 ≤ (codeAnalyzeFile (fun _ _ => false)
        (fun _ => Except.ok (PyNode.boolOp [PyNode.nameExpr "a", PyNode.nameExpr "b"]))
        "w.py" (Except.ok "x = 1\n# note")).2.cyclomatic_complexity
        ∨ (codeAnalyzeFile (fun _ _ => false)
            (fun _ => Except.ok (PyNode.boolOp [PyNode.nameExpr "a", PyNode.nameExpr "b"]))
            "w.py" (Except.ok "x = 1\n# note")).2 = zeroMetrics "w.py") :=
  metrics_invariants (fun _ _ => false)
    (fun _ => Except.ok (PyNode.boolOp [PyNode.nameExpr "a", PyNode.nameExpr "b"]))
    "w.py" (Except.ok "x = 1\n# note")
    (by intro c t _ h; cases h; decide)

/-! Specification-side description of which files the directory walk
analyzes (for the amended C6): among the non-pruned traversal, exactly
the regular files whose path matches at least one include glob — exclude
globs are not consulted at the file level. -/

/-- Paths of the current directory's files selected for analysis: those
matching at least one include glob. -/
def analyzedPathsFiles (includePatterns : List String) (cur : List String) :
    List FSEntry → List String
  | [] => []
  | .dir _ _ :: rest => analyzedPathsFiles includePatterns cur rest
  | .file nm _ :: rest =>
      (if includePatterns.any fun pat => pathMatch (joinPath (cur ++ [nm])) pat
        then [joinPath (cur ++ [nm])] else [])
      ++ analyzedPathsFiles includePatterns cur rest

mutual

/-- Analyzed paths contributed by one entry's subtree (directories only;
pruned directories contribute nothing). -/
def analyzedPathsEntry (includePatterns excludePatterns : List String)
    (cur : List String) : FSEntry → List String
  | .file _ _ => []
  | .dir nm entries =>
      if isPrunedDir cur nm excludePatterns then []
      else
        analyzedPathsFiles includePatterns (cur ++ [nm]) entries
        ++ analyzedPathsList includePatterns excludePatterns (cur ++ [nm]) entries

/-- `analyzedPathsEntry` over a listing. -/
def analyzedPathsList (includePatterns excludePatterns : List String)
    (cur : List String) : List FSEntry → List String
  | [] => []
  | e :: rest =>
      analyzedPathsEntry includePatterns excludePatterns cur e
      ++ analyzedPathsList includePatterns excludePatterns cur rest

end

theorem walkFiles_keys (rex : String → String → Bool)
    (parse : String → Except SynErr PyNode) (includePatterns : List String)
    (cur : List String) :
    ∀ es : List FSEntry,
    (walkFiles rex parse includePatterns cur es).2.map Prod.fst
      = analyzedPathsFiles includePatterns cur es := by
  intro es
  induction es with
  | nil => rfl
  | cons e rest ih =>
      cases e with
      | dir nm entries => simpa [walkFiles, analyzedPathsFiles] using ih
      | file nm read =>
          simp only [walkFiles, analyzedPathsFiles]
          split <;> simp [ih]

mutual

theorem walkDirEntry_keys (rex : String → String → Bool)
    (parse : String → Except SynErr PyNode)
    (includePatterns excludePatterns : List String) (cur : List String)
    (e : FSEntry) :
    (walkDirEntry rex parse includePatterns excludePatterns cur e).2.map Prod.fst
      = analyzedPathsEntry includePatterns excludePatterns cur e := by
  cases e with
  | file nm read => rfl
  | dir nm entries =>
      simp only [walkDirEntry, analyzedPathsEntry]
      split
      · rfl
      · simp only [List.map_append]
        rw [walkFiles_keys rex parse includePatterns (cur ++ [nm]) entries,
          walkDirList_keys rex parse includePatterns excludePatterns
            (cur ++ [nm]) entries]

theorem walkDirList_keys (rex : String → String → Bool)
    (parse : String → Except SynErr PyNode)
    (includePatterns excludePatterns : List String) (cur : List String)
    (es : List FSEntry) :
    (walkDirList rex parse includePatterns excludePatterns cur es).2.map Prod.fst
      = analyzedPathsList includePatterns excludePatterns cur es := by
  cases es with
  | nil => rfl
  | cons e rest =>
      simp only [walkDirList, analyzedPathsList, List.map_append]
      rw [walkDirEntry_keys rex parse includePatterns excludePatterns cur e,
        walkDirList_keys rex parse includePatterns excludePatterns cur rest]

end

/-- C6 (amended).  The set of analyzed files — the keys of the metrics
map, in traversal order — is exactly the specification-side list of
non-pruned regular files whose path matches at least one include glob;
exclude globs play no role at the file level. -/
theorem analyzed_iff_include_match (rex : String → String → Bool)
    (parse : String → Except SynErr PyNode)
    (root : List String) (entries : List FSEntry)
    (includePatterns excludePatterns : List String) :
    (analyzeDirectory rex parse root entries includePatterns
        excludePatterns).metrics.map Prod.fst
      = analyzedPathsFiles includePatterns root entries
        ++ analyzedPathsList includePatterns excludePatterns root entries := by
  simp only [analyzeDirectory, walkEntries, List.map_append]
  rw [walkFiles_keys, walkDirList_keys]

/-- Counterexample for C6 as stated: with include `*.py` AND exclude
`*.py`, the file `proj/x.py` matches an exclude glob, yet it is analyzed
(it appears in the metrics map) — files are never tested against exclude
globs. -/
theorem analyzed_iff_include_match_counterexample :
    pathMatch "proj/x.py" "*.py" = true
    ∧ (analyzeDirectory (fun _ _ => false)
        (fun _ => Except.ok (PyNode.nameExpr "x")) ["proj"]
        [.file "x.py" (Except.ok "x = 1")] ["*.py"] ["*.py"]).metrics.map
          Prod.fst = ["proj/x.py"] := by decide

/-! Helper lemmas for the unreadable-file claim (C4). -/

/-- An unreadable `.py` file yields exactly the two `analysis_error`
issues (one from the AST analyzer, one from the security analyzer) and
the all-zero metrics record. -/
theorem codeAnalyzeFile_unreadable (rex : String → String → Bool)
    (parse : String → Except SynErr PyNode) (fp e : String)
    (hpy : pyLower (pathSuffix fp) = ".py") :
    codeAnalyzeFile rex parse fp (Except.error e)
      = ([{ file_path := fp, line_number := 0, column := 0, severity := "high",
            category := "analysis_error", message := "Analysis error: " ++ e },
          { file_path := fp, line_number := 0, column := 0, severity := "high",
            category := "analysis_error",
            message := "Security analysis error: " ++ e }],
         zeroMetrics fp) := by
  simp [codeAnalyzeFile, hpy, pythonAnalyzeFile, securityAnalyzeFile]

/-- Every issue a visited node produces carries the analyzed file's
path. -/
theorem issuesForNode_path (t : PyNode) (fp : String) (n : PyNode) (i : CodeIssue)
    (hi : i ∈ issuesForNode t fp n) : i.file_path = fp := by
  cases n with
  | importStmt ln c names =>
      simp only [issuesForNode, List.mem_map] at hi
      obtain ⟨al, _, hEq⟩ := hi
      subst hEq
      rfl
  | functionDef ln c nm ac body =>
      simp only [issuesForNode, List.mem_append] at hi
      rcases hi with h | h <;> split at h <;> simp_all
  | constantStr ln c v =>
      simp only [issuesForNode] at hi
      split at hi <;> simp_all
  | exceptHandler ln c typ body =>
      simp only [issuesForNode] at hi
      split at hi <;> simp_all
  | exprStmt ln c v =>
      cases v with
      | constantStr a b s =>
          simp only [issuesForNode] at hi
          split at hi <;> simp_all
      | importStmt a b c2 => simp [issuesForNode] at hi
      | importFrom a b c2 d => simp [issuesForNode] at hi
      | functionDef a b c2 d e => simp [issuesForNode] at hi
      | classDef a b c2 d => simp [issuesForNode] at hi
      | ifStmt a b c2 => simp [issuesForNode] at hi
      | whileStmt a b c2 => simp [issuesForNode] at hi
      | forStmt a b c2 d => simp [issuesForNode] at hi
      | asyncForStmt a b c2 d => simp [issuesForNode] at hi
      | exceptHandler a b c2 d => simp [issuesForNode] at hi
      | boolOp vs => simp [issuesForNode] at hi
      | nameExpr id => simp [issuesForNode] at hi
      | attributeExpr v2 a => simp [issuesForNode] at hi
      | exprStmt a b c2 => simp [issuesForNode] at hi
      | otherNode ch => simp [issuesForNode] at hi
  | importFrom ln c m names => simp [issuesForNode] at hi
  | classDef ln c nm body => simp [issuesForNode] at hi
  | ifStmt a b c => simp [issuesForNode] at hi
  | whileStmt a b c => simp [issuesForNode] at hi
  | forStmt a b c d => simp [issuesForNode] at hi
  | asyncForStmt a b c d => simp [issuesForNode] at hi
  | boolOp vs => simp [issuesForNode] at hi
  | nameExpr id => simp [issuesForNode] at hi
  | attributeExpr v a => simp [issuesForNode] at hi
  | otherNode ch => simp [issuesForNode] at hi

/-- Every issue reported for a file carries that file's path. -/
theorem codeAnalyzeFile_path (rex : String → String → Bool)
    (parse : String → Except SynErr PyNode) (fp : String)
    (read : Except String String) :
    ∀ i ∈ (codeAnalyzeFile rex parse fp read).1, i.file_path = fp := by
  intro i hi
  simp only [codeAnalyzeFile] at hi
  split at hi
  · simp only [List.mem_append] at hi
    rcases hi with hp | hs
    · cases read with
      | error e =>
          simp only [pythonAnalyzeFile, List.mem_singleton] at hp
          subst hp
          rfl
      | ok content =>
          simp only [pythonAnalyzeFile] at hp
          cases hpc : parse content with
          | error e =>
              rw [hpc] at hp
              simp only [List.mem_singleton] at hp
              subst hp
              rfl
          | ok tree =>
              rw [hpc] at hp
              simp only [analyzeAst, List.mem_flatMap] at hp
              obtain ⟨n, _, hin⟩ := hp
              exact issuesForNode_path tree fp n i hin
    · cases read with
      | error e =>
          simp only [securityAnalyzeFile, List.mem_singleton] at hs
          subst hs
          rfl
      | ok content =>
          simp only [securityAnalyzeFile] at hs
          obtain ⟨cp, _, pat, _, il, _, _, rfl⟩ := scanCatalogue_mem hs
          rfl
  · simp at hi

/-- A readable file never yields an `analysis_error` issue (parse
failures yield `syntax_error`; everything else has a structural or
`security_` category). -/
theorem codeAnalyzeFile_readable_no_analysis_error
    (rex : String → String → Bool) (parse : String → Except SynErr PyNode)
    (fp content : String) :
    ∀ i ∈ (codeAnalyzeFile rex parse fp (Except.ok content)).1,
      i.category ≠ "analysis_error" := by
  intro i hi
  simp only [codeAnalyzeFile] at hi
  split at hi
  · simp only [List.mem_append] at hi
    rcases hi with hp | hs
    · simp only [pythonAnalyzeFile] at hp
      cases hpc : parse content with
      | error e =>
          rw [hpc] at hp
          simp only [List.mem_singleton] at hp
          subst hp
          exact (by decide : ("syntax_error" : String) ≠ "analysis_error")
      | ok tree =>
          rw [hpc] at hp
          simp only [analyzeAst, List.mem_flatMap] at hp
          obtain ⟨n, _, hin⟩ := hp
          rcases (issuesForNode_cat tree fp n i hin).1 with h | h | h | h | h <;>
            rw [h] <;> decide
    · simp only [securityAnalyzeFile] at hs
      obtain ⟨cp, hcp, pat, _, il, _, _, rfl⟩ := scanCatalogue_mem hs
      simp only [securityPatterns, List.mem_cons, List.mem_singleton,
        List.not_mem_nil, or_false] at hcp
      rcases hcp with rfl | rfl | rfl | rfl | rfl
      · exact (by decide :
          ("security_" ++ "sql_injection" : String) ≠ "analysis_error")
      · exact (by decide :
          ("security_" ++ "command_injection" : String) ≠ "analysis_error")
      · exact (by decide :
          ("security_" ++ "path_traversal" : String) ≠ "analysis_error")
      · exact (by decide :
          ("security_" ++ "hardcoded_secrets" : String) ≠ "analysis_error")
      · exact (by decide :
          ("security_" ++ "insecure_random" : String) ≠ "analysis_error")
  · simp at hi

/-- `filter` distributes over `flatMap`. -/
theorem filter_flatMap {α β : Type} (l : List α) (f : α → List β) (p : β → Bool) :
    (l.flatMap f).filter p = l.flatMap fun a => (f a).filter p := by
  induction l with
  | nil => rfl
  | cons a as ih => simp [List.flatMap_cons, List.filter_append, ih]

theorem joinPath_cons (c : String) (cs : List String) (h : cs ≠ []) :
    joinPath (c :: cs) = c ++ "/" ++ joinPath cs := by
  cases cs with
  | nil => simp at h
  | cons d ds => rfl

/-- Joined paths sharing the same directory prefix are equal only when
the final components are. -/
theorem joinPath_last_inj (root : List String) (a b : String)
    (h : joinPath (root ++ [a]) = joinPath (root ++ [b])) : a = b := by
  induction root with
  | nil => simpa [joinPath] using h
  | cons c cs ih =>
      rw [List.cons_append, List.cons_append,
        joinPath_cons c (cs ++ [a]) (by simp),
        joinPath_cons c (cs ++ [b]) (by simp)] at h
      exact ih (string_append_cancel (c ++ "/") _ _ h)

/-- The file loop on a flat batch whose members all match some include
pattern: each file contributes its issues and one metrics entry, in
order. -/
theorem walkFiles_all_match (rex : String → String → Bool)
    (parse : String → Except SynErr PyNode)
    (includePatterns : List String) (cur : List String) :
    ∀ fs : List (String × Except String String),
    (∀ p ∈ fs,
      (includePatterns.any fun pat =>
        pathMatch (joinPath (cur ++ [p.1])) pat) = true) →
    walkFiles rex parse includePatterns cur
        (fs.map fun p => FSEntry.file p.1 p.2)
      = (fs.flatMap fun p =>
          (codeAnalyzeFile rex parse (joinPath (cur ++ [p.1])) p.2).1,
        fs.map fun p =>
          (joinPath (cur ++ [p.1]),
           (codeAnalyzeFile rex parse (joinPath (cur ++ [p.1])) p.2).2)) := by
  intro fs
  induction fs with
  | nil => intro _; rfl
  | cons p ps ih =>
      intro hall
      have hp := hall p (List.mem_cons_self p ps)
      have hps := ih fun q hq => hall q (List.mem_cons_of_mem p hq)
      simp only [List.map_cons, walkFiles, hp, if_true, hps, List.flatMap_cons,
        List.singleton_append]

/-- A listing of regular files only has no directory phase. -/
theorem walkDirList_files (rex : String → String → Bool)
    (parse : String → Except SynErr PyNode)
    (includePatterns excludePatterns : List String) (cur : List String) :
    ∀ fs : List (String × Except String String),
    walkDirList rex parse includePatterns excludePatterns cur
        (fs.map fun p => FSEntry.file p.1 p.2) = ([], []) := by
  intro fs
  induction fs with
  | nil => rfl
  | cons p ps ih => simp [walkDirList, walkDirEntry, ih]

/-- A flatMap of empty contributions is empty. -/
theorem flatMap_nil_of {α β : Type} (l : List α) (f : α → List β)
    (h : ∀ a ∈ l, f a = []) : l.flatMap f = [] := by
  induction l with
  | nil => rfl
  | cons a as ih =>
      simp only [List.flatMap_cons, h a (List.mem_cons_self a as),
        List.nil_append]
      exact ih fun x hx => h x (List.mem_cons_of_mem a hx)

/-- Association-list lookup of a batch member's path, under distinct
names. -/
theorem lookup_map_of_nodup (root : List String)
    (M : String × Except String String → CodeMetrics) :
    ∀ (fs : List (String × Except String String))
      (p : String × Except String String), p ∈ fs →
    (fs.map Prod.fst).Nodup →
    List.lookup (joinPath (root ++ [p.1]))
        (fs.map fun q => (joinPath (root ++ [q.1]), M q)) = some (M p) := by
  intro fs
  induction fs with
  | nil => intro p h _; simp at h
  | cons q qs ih =>
      intro p hp hnodup
      rcases List.mem_cons.mp hp with rfl | hps
      · simp [List.lookup]
      · have hq1 : q.1 ≠ p.1 := by
          intro hEq
          have h1 := (List.nodup_cons.mp hnodup).1
          apply h1
          rw [hEq]
          exact List.mem_map_of_mem Prod.fst hps
        have hne : (joinPath (root ++ [p.1]) == joinPath (root ++ [q.1])) = false := by
          rw [beq_eq_false_iff_ne]
          intro hEq
          exact hq1 (joinPath_last_inj root q.1 p.1 hEq.symm)
        simp only [List.map_cons, List.lookup, hne]
        exact ih p hps (List.nodup_cons.mp hnodup).2

/-- C4 (amended).  In a flat batch of N include-matching `.py` files of
which exactly one is unreadable, the run produces for that file exactly
TWO `high`-severity `analysis_error` issues — one from the AST analyzer
and one from the security analyzer, each of which opens the file
independently — plus the all-zero metrics record; traversal continues
over the remaining N-1 files, which keep their normal results and never
produce an `analysis_error`; and totalFiles = N. -/
theorem unreadable_file_isolated (rex : String → String → Bool)
    (parse : String → Except SynErr PyNode) (root : List String)
    (pre post : List (String × Except String String)) (nm e : String)
    (includePatterns excludePatterns : List String)
    (hinc : ∀ p ∈ pre ++ (nm, Except.error e) :: post,
      (includePatterns.any fun pat =>
        pathMatch (joinPath (root ++ [p.1])) pat) = true)
    (hok : ∀ p ∈ pre ++ post, ∃ c, p.2 = Except.ok c)
    (hpy : pyLower (pathSuffix (joinPath (root ++ [nm]))) = ".py")
    (hnodup : ((pre ++ (nm, Except.error e) :: post).map Prod.fst).Nodup) :
    (analyzeDirectory rex parse root
        ((pre ++ (nm, Except.error e) :: post).map fun p =>
          FSEntry.file p.1 p.2) includePatterns excludePatterns).total_files
      = (pre ++ (nm, Except.error e) :: post).length
    ∧ (analyzeDirectory rex parse root
        ((pre ++ (nm, Except.error e) :: post).map fun p =>
          FSEntry.file p.1 p.2) includePatterns excludePatterns).issues.filter
          (fun i => i.file_path == joinPath (root ++ [nm])
            && i.category == "analysis_error")
      = [{ file_path := joinPath (root ++ [nm]), line_number := 0, column := 0,
           severity := "high", category := "analysis_error",
           message := "Analysis error: " ++ e },
         { file_path := joinPath (root ++ [nm]), line_number := 0, column := 0,
           severity := "high", category := "analysis_error",
           message := "Security analysis error: " ++ e }]
    ∧ (analyzeDirectory rex parse root
        ((pre ++ (nm, Except.error e) :: post).map fun p =>
          FSEntry.file p.1 p.2) includePatterns excludePatterns).metrics.lookup
        (joinPath (root ++ [nm])) = some (zeroMetrics (joinPath (root ++ [nm])))
    ∧ (∀ p ∈ pre ++ post,
        (analyzeDirectory rex parse root
          ((pre ++ (nm, Except.error e) :: post).map fun p =>
            FSEntry.file p.1 p.2) includePatterns excludePatterns).metrics.lookup
          (joinPath (root ++ [p.1]))
        = some ((codeAnalyzeFile rex parse (joinPath (root ++ [p.1])) p.2).2))
    ∧ (∀ p ∈ pre ++ post,
        ∀ i ∈ (analyzeDirectory rex parse root
          ((pre ++ (nm, Except.error e) :: post).map fun p =>
            FSEntry.file p.1 p.2) includePatterns excludePatterns).issues,
          i.file_path = joinPath (root ++ [p.1]) →
          i.category ≠ "analysis_error") := by
  have hexp := walkFiles_all_match rex parse includePatterns root
    (pre ++ (nm, Except.error e) :: post) hinc
  have hdirs := walkDirList_files rex parse includePatterns excludePatterns root
    (pre ++ (nm, Except.error e) :: post)
  have hres : analyzeDirectory rex parse root
      ((pre ++ (nm, Except.error e) :: post).map fun p => FSEntry.file p.1 p.2)
      includePatterns excludePatterns
      = { issues := (pre ++ (nm, Except.error e) :: post).flatMap fun p =>
            (codeAnalyzeFile rex parse (joinPath (root ++ [p.1])) p.2).1
          metrics := (pre ++ (nm, Except.error e) :: post).map fun p =>
            (joinPath (root ++ [p.1]),
             (codeAnalyzeFile rex parse (joinPath (root ++ [p.1])) p.2).2)
          total_files := ((pre ++ (nm, Except.error e) :: post).map fun p =>
            (joinPath (root ++ [p.1]),
             (codeAnalyzeFile rex parse (joinPath (root ++ [p.1])) p.2).2)).length
          total_issues := ((pre ++ (nm, Except.error e) :: post).flatMap fun p =>
            (codeAnalyzeFile rex parse (joinPath (root ++ [p.1])) p.2).1).length } := by
    simp only [analyzeDirectory, walkEntries, hexp, hdirs, List.append_nil]
  have hmid : nm ∉ pre.map Prod.fst ++ post.map Prod.fst := by
    have hmap : ((pre ++ (nm, Except.error e) :: post).map Prod.fst)
        = pre.map Prod.fst ++ nm :: post.map Prod.fst := by
      simp
    rw [hmap] at hnodup
    have h2 := List.perm_middle.nodup hnodup
    exact (List.nodup_cons.mp h2).1
  have hne_nm : ∀ p ∈ pre ++ post, p.1 ≠ nm := by
    intro p hp hEq
    apply hmid
    rw [← hEq, ← List.map_append]
    exact List.mem_map_of_mem Prod.fst hp
  have hbadfile := codeAnalyzeFile_unreadable rex parse
    (joinPath (root ++ [nm])) e hpy
  have hfilter :
      ((pre ++ (nm, Except.error e) :: post).flatMap fun p =>
        (codeAnalyzeFile rex parse (joinPath (root ++ [p.1])) p.2).1).filter
        (fun i => i.file_path == joinPath (root ++ [nm])
          && i.category == "analysis_error")
      = [{ file_path := joinPath (root ++ [nm]), line_number := 0, column := 0,
           severity := "high", category := "analysis_error",
           message := "Analysis error: " ++ e },
         { file_path := joinPath (root ++ [nm]), line_number := 0, column := 0,
           severity := "high", category := "analysis_error",
           message := "Security analysis error: " ++ e }] := by
    rw [filter_flatMap, List.flatMap_append, List.flatMap_cons]
    have hside : ∀ (l : List (String × Except String String)),
        (∀ p ∈ l, p ∈ pre ++ post) →
        (l.flatMap fun p =>
          ((codeAnalyzeFile rex parse (joinPath (root ++ [p.1])) p.2).1).filter
            (fun i => i.file_path == joinPath (root ++ [nm])
              && i.category == "analysis_error")) = [] := by
      intro l hl
      refine flatMap_nil_of l _ ?_
      intro p hp
      rw [List.filter_eq_nil_iff]
      intro i hi
      have hpath := codeAnalyzeFile_path rex parse
        (joinPath (root ++ [p.1])) p.2 i hi
      have hneq : (i.file_path == joinPath (root ++ [nm])) = false := by
        rw [beq_eq_false_iff_ne, hpath]
        intro hEq
        exact hne_nm p (hl p hp) (joinPath_last_inj root p.1 nm hEq)
      simp [hneq]
    rw [hside pre (fun p hp => List.mem_append_left post hp),
      hside post (fun p hp => List.mem_append_right pre hp)]
    rw [hbadfile]
    simp
  constructor
  · rw [hres]
    simp
  constructor
  · rw [hres]
    exact hfilter
  constructor
  · rw [hres]
    have hl := lookup_map_of_nodup root
      (fun q => (codeAnalyzeFile rex parse (joinPath (root ++ [q.1])) q.2).2)
      (pre ++ (nm, Except.error e) :: post) (nm, Except.error e)
      (List.mem_append_right pre (List.mem_cons_self _ post)) hnodup
    rw [hl]
    congr 1
    show (codeAnalyzeFile rex parse (joinPath (root ++ [nm])) (Except.error e)).2
      = zeroMetrics (joinPath (root ++ [nm]))
    rw [hbadfile]
  constructor
  · intro p hp
    rw [hres]
    have hpfiles : p ∈ pre ++ (nm, Except.error e) :: post := by
      rcases List.mem_append.mp hp with h | h
      · exact List.mem_append_left _ h
      · exact List.mem_append_right _ (List.mem_cons_of_mem _ h)
    exact lookup_map_of_nodup root
      (fun q => (codeAnalyzeFile rex parse (joinPath (root ++ [q.1])) q.2).2)
      (pre ++ (nm, Except.error e) :: post) p hpfiles hnodup
  · intro p hp i hi hipath
    rw [hres] at hi
    simp only [List.mem_flatMap] at hi
    obtain ⟨q, hq, hiq⟩ := hi
    have hqpath := codeAnalyzeFile_path rex parse
      (joinPath (root ++ [q.1])) q.2 i hiq
    have hq1p1 : q.1 = p.1 :=
      joinPath_last_inj root q.1 p.1 (by rw [← hqpath, hipath])
    have hqp : q = p := by
      have hmap : ((pre ++ (nm, Except.error e) :: post).map Prod.fst).Nodup :=
        hnodup
      have hpfiles : p ∈ pre ++ (nm, Except.error e) :: post := by
        rcases List.mem_append.mp hp with h | h
        · exact List.mem_append_left _ h
        · exact List.mem_append_right _ (List.mem_cons_of_mem _ h)
      exact List.inj_on_of_nodup_map hmap hq hpfiles hq1p1
    subst hqp
    obtain ⟨c, hc⟩ := hok q hp
    rw [hc] at hiq
    exact codeAnalyzeFile_readable_no_analysis_error rex parse
      (joinPath (root ++ [q.1])) c i hiq

/-- Counterexample for C4 as stated: in a 2-file batch whose second file
is unreadable, the run reports TWO `analysis_error` issues for that file,
not exactly one — `PythonASTAnalyzer.analyze_file` and
`SecurityAnalyzer.analyze_file` each open the file and each convert the
failure into its own issue.  (totalFiles is still 2 as claimed.) -/
theorem unreadable_file_isolated_counterexample :
    ((analyzeDirectory (fun _ _ => false) (fun _ => Except.ok (PyNode.nameExpr "x"))
        ["proj"]
        [.file "a.py" (Except.ok "x = 1"),
         .file "b.py" (Except.error "Permission denied")]
        ["*.py"] []).issues.filter fun i =>
      i.file_path == "proj/b.py" && i.category == "analysis_error").length = 2
    ∧ (analyzeDirectory (fun _ _ => false) (fun _ => Except.ok (PyNode.nameExpr "x"))
        ["proj"]
        [.file "a.py" (Except.ok "x = 1"),
         .file "b.py" (Except.error "Permission denied")]
        ["*.py"] []).total_files = 2 := by decide

/-- Witness for C4 (amended) at a concrete 2-file batch. -/
theorem unreadable_file_isolated_witness :
    (analyzeDirectory (fun _ _ => false) (fun _ => Except.ok (PyNode.nameExpr "x"))
        ["proj"]
        (([("a.py", (Except.ok "x = 1" : Except String String))]
          ++ ("b.py", (Except.error "Permission denied" : Except String String)) :: []).map fun p =>
          FSEntry.file p.1 p.2) ["*.py"] []).total_files
      = ([("a.py", (Except.ok "x = 1" : Except String String))]
          ++ ("b.py", (Except.error "Permission denied" : Except String String)) :: []).length
    ∧ (analyzeDirectory (fun _ _ => false) (fun _ => Except.ok (PyNode.nameExpr "x"))
        ["proj"]
        (([("a.py", (Except.ok "x = 1" : Except String String))]
          ++ ("b.py", (Except.error "Permission denied" : Except String String)) :: []).map fun p =>
          FSEntry.file p.1 p.2) ["*.py"] []).issues.filter
        (fun i => i.file_path == joinPath (["proj"] ++ ["b.py"])
          && i.category == "analysis_error")
      = [{ file_path := joinPath (["proj"] ++ ["b.py"]), line_number := 0,
           column := 0, severity := "high", category := "analysis_error",
           message := "Analysis error: " ++ "Permission denied" },
         { file_path := joinPath (["proj"] ++ ["b.py"]), line_number := 0,
           column := 0, severity := "high", category := "analysis_error",
           message := "Security analysis error: " ++ "Permission denied" }] :=
  have h := unreadable_file_isolated (fun _ _ => false)
    (fun _ => Except.ok (PyNode.nameExpr "x")) ["proj"]
    [("a.py", (Except.ok "x = 1" : Except String String))] [] "b.py" "Permission denied" ["*.py"] []
    (by decide)
    (by
      intro p hp
      simp only [List.append_nil, List.mem_singleton] at hp
      subst hp
      exact ⟨"x = 1", rfl⟩)
    (by decide) (by decide)
  ⟨h.1, h.2.1⟩

end ReviewRabbit
